import Mathlib

/-!
# rancher-service-up: a shallow embedding of the upgrade tool

The Go sources embedded here are `rancher/params.go` (the sidekick image
flag), `rancher/client.go` (name resolution, status polling, the upgrade
request builder) and `main.go` (the run itself).

Modelling conventions.

* Go strings are Lean strings; `strings.TrimSpace`, `strings.Count` and
  `strings.Split` are the Go standard library and are written out below on
  the characters of the string.
* A Go map is a reference.  Maps live in a `Heap` (address to contents), a
  `LaunchConfig` is `Option Addr` (`none` is the nil map), and an assignment
  `m[k] = v` updates the heap at the address of `m`.
* HTTP is an oracle (`World`) that answers each request from the number of
  requests made so far and the request itself; every request a function
  makes is appended to a trace.
* A function that can return an error, or panic, returns a `Result`.
* Not modelled: `time.Sleep`, the lines logged only in debug mode, the
  process-wide TLS setting, the body of the requests, and the failure of
  `json.Marshal` on the request (it cannot fail on decoded JSON values).
* `main` is modelled from `flag.Parse` on (line 101): the options are the
  values of the flags and the process environment is a function `environ`.
  It is split into the option checks and the phases `resolve`, `preCheck`,
  `submit`, `converge`, `settle`, each a range of lines of the Go function.
-/

namespace Rancher

/-! ## Results -/

/-- Outcome of a Go call: a value, a returned `error`, or a run-time panic. -/
inductive Result (α : Type) where
  | ok (a : α)
  | err (msg : String)
  | panic (msg : String)
  deriving Repr, DecidableEq

/-! ## Go standard library: strings -/

/-- Go `unicode.IsSpace`: the characters `strings.TrimSpace` removes. -/
def isSpace (c : Char) : Bool :=
  let n := c.toNat
  n == 0x09 || n == 0x0A || n == 0x0B || n == 0x0C || n == 0x0D || n == 0x20 ||
  n == 0x85 || n == 0xA0 || n == 0x1680 || (0x2000 ≤ n && n ≤ 0x200A) ||
  n == 0x2028 || n == 0x2029 || n == 0x202F || n == 0x205F || n == 0x3000

/-- Drop the trailing white space of a character list. -/
def trimRight (cs : List Char) : List Char :=
  (cs.reverse.dropWhile isSpace).reverse

/-- Go `strings.TrimSpace`: leading and trailing white space removed. -/
def TrimSpace (s : String) : String :=
  ⟨trimRight (s.data.dropWhile isSpace)⟩

/-- Go `strings.Count(s, ":")`: the number of colons. -/
def countColon (s : String) : Nat :=
  s.data.count ':'

/-- Go `strings.Split(s, ":")` on characters: the pieces between colons. -/
def splitColonChars : List Char → List (List Char)
  | [] => [[]]
  | c :: cs =>
    if c = ':' then [] :: splitColonChars cs
    else
      match splitColonChars cs with
      | [] => [[c]]
      | p :: ps => (c :: p) :: ps

/-- Go `strings.Split(s, ":")`. -/
def splitColon (s : String) : List String :=
  (splitColonChars s.data).map String.mk

/-! ## params.go -/

/-- SidekickImageParamType descriptor. -/
structure SidekickImageParamType where
  Name : String
  Tag : String
  deriving Repr, DecidableEq

/-- SidekickImageParams: a slice of parameters. -/
abbrev SidekickImageParams := List SidekickImageParamType

/-- `(*SidekickImageParams).Set`: the list after the call and the returned
error (`ok ()` is a nil error).  Indexing `parts` out of range panics. -/
def SidekickImageParams.Set (i : SidekickImageParams) (value : String) :
    SidekickImageParams × Result Unit :=
  let n := countColon value
  if n > 1 then
    (i, .err ("Invalid format docker image name [" ++ value ++ "]"))
  else
    if n = 1 then
      match splitColon value with
      | p0 :: p1 :: _ => (i ++ [{ Name := p0, Tag := p1 }], .ok ())
      | _ => (i, .panic "index out of range")
    else
      (i ++ [{ Name := value, Tag := "" }], .ok ())

/-! ## client.go: data model -/

/-- WaitInterval in seconds between upgrade attempts. -/
def WaitInterval : Int := 2

/-- A value held in an `interface{}` of a launch configuration: a decoded JSON
value, or the pointer to an empty string array the builder stores. -/
inductive Value where
  | null
  | bool (b : Bool)
  | num (literal : String)
  | str (s : String)
  | arr (xs : List Value)
  | obj (fields : List (String × Value))
  | emptyStringArray
  deriving Repr

/-- Contents of a Go `map[string]interface{}`: the value under each key. -/
abbrev GoMap := String → Option Value

/-- Address of a map object. -/
abbrev Addr := Nat

/-- LaunchConfig model: a map reference, `none` being the nil map. -/
abbrev LaunchConfig := Option Addr

/-- The map objects of the process, by address. -/
abbrev Heap := Addr → GoMap

/-- Go `m[k]`: reading a nil map yields no value. -/
def Heap.load (h : Heap) (m : LaunchConfig) (k : String) : Option Value :=
  match m with
  | none => none
  | some a => h a k

/-- Go `m[k] = v` on a non-nil map: the object at the address is updated. -/
def Heap.store (h : Heap) (a : Addr) (k : String) (v : Value) : Heap :=
  Function.update h a (Function.update (h a) k (some v))

/-- Go `x == s` for an `interface{}` read from a map and a string. -/
def eqString : Option Value → String → Bool
  | some (.str t), s => decide (t = s)
  | _, _ => false

/-- ConfigItem model. -/
structure ConfigItem where
  ID : String
  Name : String
  State : String
  HealthState : String
  LaunchConfig : LaunchConfig
  SecondaryLaunchConfigs : List Rancher.LaunchConfig
  deriving Repr, DecidableEq

/-- Environment model. -/
structure Environment where
  ID : String
  Name : String
  deriving Repr, DecidableEq

/-- Stack model. -/
structure Stack where
  ID : String
  EnvID : String
  Name : String
  deriving Repr, DecidableEq

/-- Service model. -/
structure Service where
  ID : String
  EnvID : String
  StackID : String
  Name : String
  State : String
  HealthState : String
  LaunchConfig : LaunchConfig
  SecondaryLaunchConfigs : List Rancher.LaunchConfig
  deriving Repr, DecidableEq

/-- InServiceStrategy model. -/
structure InServiceStrategy where
  BatchSize : Int
  IntervalMills : Int
  StartFirst : Bool
  LaunchConfig : LaunchConfig
  SecondaryLaunchConfigs : List Rancher.LaunchConfig
  deriving Repr, DecidableEq

/-- UpgradeRequest model. -/
structure UpgradeRequest where
  InServiceStrategy : InServiceStrategy
  deriving Repr, DecidableEq

/-- Client for rancher REST api. -/
structure Client where
  debug : Bool
  url : String
  deriving Repr, DecidableEq

/-- Go `int` arithmetic on a 64-bit platform wraps around. -/
def wrapInt64 (x : Int) : Int :=
  (x + 2 ^ 63) % 2 ^ 64 - 2 ^ 63

/-! ## The platform seen through HTTP -/

/-- The three actions posted to a service. -/
inductive Action where
  | upgrade
  | finishupgrade
  | rollback
  deriving Repr, DecidableEq

/-- Answer to the GET of one service: the request failed, the body did not
decode, or a service representation with its state and health state. -/
inductive StatusReply where
  | transportError
  | decodeError (msg : String)
  | service (State HealthState : String)
  deriving Repr, DecidableEq

/-- Answer to a POST: sent, or failed (with or without a response object). -/
inductive PostReply where
  | sent
  | failed (hasResponse : Bool)
  deriving Repr, DecidableEq

/-- One HTTP request made by the tool, with the answer that decides what the
tool does next. -/
inductive Event where
  | list (uri : String)
  | status (envID svcID : String) (reply : StatusReply)
  | action (a : Action) (envID svcID : String) (reply : PostReply)
  deriving Repr, DecidableEq

/-- The outside world: `url.Parse`, and the answer to each HTTP request as a
function of the number of requests made before it and of the request. -/
structure World where
  urlParse : String → Result (String × String)
  items : Nat → String → Result (List ConfigItem)
  service : Nat → String → String → StatusReply
  post : Nat → Action → String → String → PostReply

/-- State of a run: the requests made so far, the lines logged outside debug
mode, and the map objects. -/
structure Sys where
  trace : List Event
  logs : List String
  heap : Heap

/-- Append a request to the trace. -/
def Sys.emit (st : Sys) (e : Event) : Sys :=
  { st with trace := st.trace ++ [e] }

/-- Append a line to the log. -/
def Sys.log (st : Sys) (line : String) : Sys :=
  { st with logs := st.logs ++ [line] }

/-! ## client.go: operations -/

/-- NewClient constructor (the process-wide TLS setting is not modelled). -/
def NewClient (w : World) (debug : Bool) (baseURL key secret : String) : Result Client :=
  let baseURL := TrimSpace baseURL
  match w.urlParse baseURL with
  | .err e => .err e
  | .panic e => .panic e
  | .ok (scheme, host) =>
    let key := TrimSpace key
    if key = "" then .err "argument [key] can't be blank"
    else
      let secret := TrimSpace secret
      if secret = "" then .err "argument [secret] can't be blank"
      else .ok { debug := debug,
                 url := scheme ++ "://" ++ key ++ ":" ++ secret ++ "@" ++ host ++ "/v1" }

/-- The `fetchItems` method: one GET of a collection. -/
def fetchItems (w : World) (st : Sys) (uri : String) : Sys × Result (List ConfigItem) :=
  (st.emit (.list uri), w.items st.trace.length uri)

/-- The `for _, el := range *items` loop of the three lookups: the first item
with the requested name, at which the loop breaks. -/
def firstNamed (name : String) : List ConfigItem → Option ConfigItem
  | [] => none
  | el :: rest => if name = el.Name then some el else firstNamed name rest

/-- GetEnv info from rancher. -/
def GetEnv (w : World) (st : Sys) (envName : String) : Sys × Result Environment :=
  let envName := TrimSpace envName
  if envName = "" then (st, .err "argument [envName] can't be blank")
  else
    match fetchItems w st "projects?limit=1000" with
    | (st1, .err e) => (st1, .err e)
    | (st1, .panic e) => (st1, .panic e)
    | (st1, .ok items) =>
      match firstNamed envName items with
      | some el => (st1, .ok { ID := el.ID, Name := el.Name })
      | none =>
        (st1, .err ("environment [" ++ envName ++
          "] doesn't exist in Rancher, or your API credentials don't have access to it"))

/-- GetStack info from rancher. -/
def GetStack (w : World) (st : Sys) (envID stackName : String) : Sys × Result Stack :=
  let envID := TrimSpace envID
  if envID = "" then (st, .err "argument [envID] can't be blank")
  else
    let stackName := TrimSpace stackName
    if stackName = "" then (st, .err "argument [stackName] can't be blank")
    else
      match fetchItems w st ("projects/" ++ envID ++ "/environments?limit=1000") with
      | (st1, .err e) => (st1, .err e)
      | (st1, .panic e) => (st1, .panic e)
      | (st1, .ok items) =>
        match firstNamed stackName items with
        | some el => (st1, .ok { ID := el.ID, EnvID := envID, Name := el.Name })
        | none =>
          (st1, .err ("stack [" ++ stackName ++
            "] doesn't exist in Rancher, or your API credentials don't have access to it"))

/-- GetService info from rancher. -/
def GetService (w : World) (st : Sys) (envID stackID serviceName : String) :
    Sys × Result Service :=
  let envID := TrimSpace envID
  if envID = "" then (st, .err "argument [envID] can't be blank")
  else
    let stackID := TrimSpace stackID
    if stackID = "" then (st, .err "argument [stackID] can't be blank")
    else
      let serviceName := TrimSpace serviceName
      if serviceName = "" then (st, .err "argument [serviceName] can't be blank")
      else
        match fetchItems w st
            ("projects/" ++ envID ++ "/environments/" ++ stackID ++ "/services?limit=1000") with
        | (st1, .err e) => (st1, .err e)
        | (st1, .panic e) => (st1, .panic e)
        | (st1, .ok items) =>
          match firstNamed serviceName items with
          | some el =>
            (st1, .ok { ID := el.ID, EnvID := envID, StackID := stackID, Name := el.Name,
                        State := el.State, HealthState := el.HealthState,
                        LaunchConfig := el.LaunchConfig,
                        SecondaryLaunchConfigs := el.SecondaryLaunchConfigs })
          | none =>
            (st1, .err ("service [" ++ serviceName ++
              "] doesn't exist in Rancher, or your API credentials don't have access to it"))

/-- What `GetServiceStatus` returns for an answer of the platform. -/
def StatusReply.observed : StatusReply → Result String
  | .transportError => .err "Unable to request the service status from the Rancher API"
  | .decodeError msg => .err msg
  | .service state health => if health = "unhealthy" then .ok "unhealthy" else .ok state

/-- GetServiceStatus info from rancher. -/
def GetServiceStatus (w : World) (st : Sys) (service : Option Service) : Sys × Result String :=
  match service with
  | none => (st, .err "argument [service] can't be null")
  | some s =>
    let reply := w.service st.trace.length s.EnvID s.ID
    (st.emit (.status s.EnvID s.ID reply), reply.observed)

/-- FinishUpgrade rancher service. -/
def FinishUpgrade (w : World) (st : Sys) (service : Option Service) : Sys × Result Unit :=
  match service with
  | none => (st, .err "argument [service] can't be null")
  | some s =>
    let reply := w.post st.trace.length .finishupgrade s.EnvID s.ID
    let st1 := st.emit (.action .finishupgrade s.EnvID s.ID reply)
    match reply with
    | .sent => (st1, .ok ())
    | .failed _ => (st1, .err "Unable to finish the previous upgrade in Rancher API")

/-- RollbackUpgrade rancher service. -/
def RollbackUpgrade (w : World) (st : Sys) (service : Option Service) : Sys × Result Unit :=
  match service with
  | none => (st, .err "argument [service] can't be null")
  | some s =>
    let reply := w.post st.trace.length .rollback s.EnvID s.ID
    let st1 := st.emit (.action .rollback s.EnvID s.ID reply)
    match reply with
    | .sent => (st1, .ok ())
    | .failed _ => (st1, .err "Unable to finish rollback in Rancher API")

/-- The text of the error `WaitForServiceState` returns when its loop ends. -/
def waitError (state targetState : String) : String :=
  "Upgrade error: current service state [" ++ state ++ "], but it needs to be '" ++
    targetState ++ "'"

/-- The `for attempts := 0; attempts < timeout; attempts += WaitInterval` loop
of `WaitForServiceState`, entered with the current `attempts` and `state`.
The sleep is not modelled.  `state, err = api.GetServiceStatus(service)`
assigns the empty string to `state` when the poll fails.  The counter is an
unbounded integer: for a timeout below `2^63 - 1` the Go counter does not
wrap. -/
def waitLoop (w : World) (service : Service) (timeout : Int) (targetState : String)
    (attempts : Int) (state : String) (st : Sys) : Sys × Result Unit :=
  if attempts < timeout then
    let polled := GetServiceStatus w st (some service)
    let next : Sys × String :=
      match polled.2 with
      | .ok s => (polled.1, s)
      | .err e => (polled.1.log e, "")
      | .panic e => (polled.1.log e, "")
    if next.2 = targetState then (next.1, .ok ())
    else waitLoop w service timeout targetState (attempts + WaitInterval) next.2 next.1
  else (st, .err (waitError state targetState))
termination_by (timeout - attempts).toNat
decreasing_by
  simp only [WaitInterval]
  omega

/-- WaitForServiceState rancher service. -/
def WaitForServiceState (w : World) (st : Sys) (service : Option Service) (timeout : Int)
    (targetState : String) : Sys × Result Unit :=
  match service with
  | none => (st, .panic "nil pointer dereference")
  | some s => waitLoop w s timeout targetState 0 s.State st

/-- The inner `for _, img := range *newSidekickImage` loop: the first override
whose name equals the entry's `name`, at which the loop breaks. -/
def firstOverride (name : Option Value) : SidekickImageParams → Option SidekickImageParamType
  | [] => none
  | img :: rest => if eqString name img.Name then some img else firstOverride name rest

/-- The outer `for i, cfg := range ...SecondaryLaunchConfigs` loop: for each
entry in order, the image of the entry is overwritten on the first override
that matches.  Writing to a nil map panics. -/
def rewriteSidekicks (h : Heap) : List LaunchConfig → SidekickImageParams → Heap × Result Unit
  | [], _ => (h, .ok ())
  | cfg :: rest, imgs =>
    match firstOverride (h.load cfg "name") imgs with
    | none => rewriteSidekicks h rest imgs
    | some img =>
      match cfg with
      | none => (h, .panic "assignment to entry in nil map")
      | some a =>
        rewriteSidekicks (h.store a "imageUuid" (.str ("docker:" ++ img.Name))) rest imgs

/-- NewUpgradeRequest constructor.  `newSidekickImage` is a pointer: `none` is
the nil pointer, whose dereference panics. -/
def NewUpgradeRequest (h : Heap) (service : Option Service) (batchSize batchInterval : Int)
    (startBeforeStop : Bool) (image : String) (sidekicks : Bool)
    (newSidekickImage : Option SidekickImageParams) : Heap × Result UpgradeRequest :=
  let image := TrimSpace image
  if image = "" then (h, .err "argument [image] can't be blank")
  else
    match service with
    | none => (h, .err "argument [service] can't be null")
    | some s =>
      match s.LaunchConfig with
      | none => (h, .panic "assignment to entry in nil map")
      | some a =>
        let h1 := h.store a "imageUuid" (.str ("docker:" ++ image))
        let h2 := h1.store a "secrets" .emptyStringArray
        let secondary : List LaunchConfig := if sidekicks then s.SecondaryLaunchConfigs else []
        let req : UpgradeRequest :=
          { InServiceStrategy :=
              { BatchSize := batchSize,
                IntervalMills := wrapInt64 (batchInterval * 1000),
                StartFirst := startBeforeStop,
                LaunchConfig := some a,
                SecondaryLaunchConfigs := secondary } }
        match newSidekickImage with
        | none => (h2, .panic "nil pointer dereference")
        | some imgs =>
          if imgs.length = 0 then (h2, .ok req)
          else
            match rewriteSidekicks h2 secondary imgs with
            | (h3, .ok _) => (h3, .ok req)
            | (h3, .err e) => (h3, .err e)
            | (h3, .panic e) => (h3, .panic e)

/-- UpgradeService rancher service.  When the POST fails in debug mode the
status code of the response is logged, which panics without a response. -/
def UpgradeService (w : World) (api : Client) (st : Sys) (service : Option Service)
    (req : Option UpgradeRequest) : Sys × Result Unit :=
  match service with
  | none => (st, .err "argument [service] can't be null")
  | some s =>
    match req with
    | none => (st, .err "argument [req] can't be null")
    | some _ =>
      let reply := w.post st.trace.length .upgrade s.EnvID s.ID
      let st1 := st.emit (.action .upgrade s.EnvID s.ID reply)
      match reply with
      | .sent => (st1, .ok ())
      | .failed hasResponse =>
        if api.debug && !hasResponse then (st1, .panic "nil pointer dereference")
        else (st1, .err "Unable to upgrade service from the Rancher API")

/-! ## main.go -/

/-- The options of a run, as `flag.Parse` leaves them (the `flag` package is
not modelled). -/
structure Options where
  debug : Bool
  version : Bool
  url : String
  key : String
  secret : String
  env : String
  stack : String
  service : String
  image : String
  startFirst : Bool
  batchSize : Int
  batchInterval : Int
  upgradeTimeout : Int
  waiteUpgradeFinish : Bool
  finishUpgrade : Bool
  upgradeSidekicks : Bool
  newSidekickImage : SidekickImageParams

/-- How a run ends: the version is printed and the process exits 0, a message
and the usage are printed and the process exits 0 (`usage`), `main` returns
after logging its report, `log.Fatal` exits with an error, or a panic is
recovered by `panicExit`. -/
inductive Outcome where
  | version
  | usage (msg : String)
  | reported (line : String)
  | fatal (msg : String)
  | panicked (msg : String)
  deriving Repr, DecidableEq

/-- A finished run. -/
structure Run where
  final : Sys
  outcome : Outcome

/-- Lines 114-144 of `main`: the client is built and the environment, the
stack and the service are found. -/
def resolve (w : World) (opts : Options) (st : Sys) : Sys × Result (Client × Service) :=
  match NewClient w opts.debug opts.url opts.key opts.secret with
  | .err e => (st, .err e)
  | .panic e => (st, .panic e)
  | .ok api =>
    match GetEnv w st opts.env with
    | (st1, .err e) => (st1, .err e)
    | (st1, .panic e) => (st1, .panic e)
    | (st1, .ok env) =>
      match GetStack w st1 env.ID opts.stack with
      | (st2, .err e) => (st2, .err e)
      | (st2, .panic e) => (st2, .panic e)
      | (st2, .ok stack) =>
        match GetService w st2 env.ID stack.ID opts.service with
        | (st3, .err e) => (st3, .err e)
        | (st3, .panic e) => (st3, .panic e)
        | (st3, .ok service) => (st3, .ok (api, service))

/-- Lines 146-157 of `main`: a service found in state `upgraded` is finished
and awaited in state `active`. -/
def preCheck (w : World) (opts : Options) (service : Service) (st : Sys) : Sys × Result Unit :=
  if service.State = "upgraded" then
    match FinishUpgrade w st (some service) with
    | (st1, .err e) => (st1, .err e)
    | (st1, .panic e) => (st1, .panic e)
    | (st1, .ok _) => WaitForServiceState w st1 (some service) opts.upgradeTimeout "active"
  else (st, .ok ())

/-- Lines 164-180 of `main`: the request is built and the upgrade posted. -/
def submit (w : World) (opts : Options) (api : Client) (service : Service) (st : Sys) :
    Sys × Result Unit :=
  match NewUpgradeRequest st.heap (some service) opts.batchSize opts.batchInterval
      opts.startFirst opts.image opts.upgradeSidekicks (some opts.newSidekickImage) with
  | (h, .err e) => ({ st with heap := h }, .err e)
  | (h, .panic e) => ({ st with heap := h }, .panic e)
  | (h, .ok req) => UpgradeService w api { st with heap := h } (some service) (some req)

/-- Lines 183-186 of `main`: the wait for `upgraded`, whose error is logged
with `log.Println` and does not end the run. -/
def converge (w : World) (opts : Options) (service : Service) (st : Sys) : Sys × Result Unit :=
  match WaitForServiceState w st (some service) opts.upgradeTimeout "upgraded" with
  | (st1, .ok _) => (st1, .ok ())
  | (st1, .err e) => (st1.log e, .ok ())
  | (st1, .panic e) => (st1, .panic e)

/-- Lines 188-222 of `main`: the status fetch, then the roll-back of an
unhealthy service, or the finish when asked for, each awaited in state
`active`. -/
def settle (w : World) (opts : Options) (service : Service) (st : Sys) : Run :=
  match GetServiceStatus w st (some service) with
  | (st1, .err e) => { final := st1, outcome := .fatal e }
  | (st1, .panic e) => { final := st1, outcome := .panicked e }
  | (st1, .ok state) =>
    if state = "unhealthy" then
      match RollbackUpgrade w st1 (some service) with
      | (st2, .err e) => { final := st2, outcome := .fatal e }
      | (st2, .panic e) => { final := st2, outcome := .panicked e }
      | (st2, .ok _) =>
        match WaitForServiceState w st2 (some service) opts.upgradeTimeout "active" with
        | (st3, .err e) => { final := st3, outcome := .fatal e }
        | (st3, .panic e) => { final := st3, outcome := .panicked e }
        | (st3, .ok _) =>
          { final := st3.log "Upgrade rollback :(", outcome := .reported "Upgrade rollback :(" }
    else if opts.finishUpgrade then
      match FinishUpgrade w st1 (some service) with
      | (st2, .err e) => { final := st2, outcome := .fatal e }
      | (st2, .panic e) => { final := st2, outcome := .panicked e }
      | (st2, .ok _) =>
        match WaitForServiceState w st2 (some service) opts.upgradeTimeout "active" with
        | (st3, .err e) => { final := st3, outcome := .fatal e }
        | (st3, .panic e) => { final := st3, outcome := .panicked e }
        | (st3, .ok _) =>
          { final := st3.log "Upgrade succeed :)", outcome := .reported "Upgrade succeed :)" }
    else
      { final := st1.log "Upgrade succeed :)", outcome := .reported "Upgrade succeed :)" }

/-- Lines 182-225 of `main`: with waiting enabled the wait and what follows
it, otherwise the report of success. -/
def conclude (w : World) (opts : Options) (service : Service) (st : Sys) : Run :=
  if opts.waiteUpgradeFinish then
    match converge w opts service st with
    | (st1, .err e) => { final := st1, outcome := .fatal e }
    | (st1, .panic e) => { final := st1, outcome := .panicked e }
    | (st1, .ok _) => settle w opts service st1
  else
    { final := st.log "Upgrade succeed :)", outcome := .reported "Upgrade succeed :)" }

/-- Lines 159-225 of `main`: the upgrade is submitted and, when that
succeeds, concluded. -/
def proceed (w : World) (opts : Options) (api : Client) (service : Service) (st : Sys) : Run :=
  match submit w opts api service st with
  | (st1, .err e) => { final := st1, outcome := .fatal e }
  | (st1, .panic e) => { final := st1, outcome := .panicked e }
  | (st1, .ok _) => conclude w opts service st1

/-- Lines 146-225 of `main`, from the service found. -/
def orchestrate (w : World) (opts : Options) (api : Client) (service : Service) (st : Sys) :
    Run :=
  match preCheck w opts service st with
  | (st1, .err e) => { final := st1, outcome := .fatal e }
  | (st1, .panic e) => { final := st1, outcome := .panicked e }
  | (st1, .ok _) => proceed w opts api service st1

/-- Lines 114-225 of `main`, started with the map objects of the decoded
answers in `heap`, an empty trace and an empty log. -/
def runFromClient (w : World) (opts : Options) (heap : Heap) : Run :=
  match resolve w opts { trace := [], logs := [], heap := heap } with
  | (st, .err e) => { final := st, outcome := .fatal e }
  | (st, .panic e) => { final := st, outcome := .panicked e }
  | (st, .ok (api, service)) => orchestrate w opts api service st

/-- Whether the characters `sub` occur in a row somewhere in a list. -/
def hasInfix (sub : List Char) : List Char → Bool
  | [] => sub.isEmpty
  | c :: cs => sub.isPrefixOf (c :: cs) || hasInfix sub cs

/-- Go `strings.Contains(s, substr)`. -/
def Contains (s substr : String) : Bool :=
  hasInfix substr.data s.data

/-- Go `os.Getenv(key)` over the variables `environ` of the process: the empty
key names no variable and yields the empty string. -/
def Getenv (environ : String → String) (key : String) : String :=
  if key = "" then "" else environ key

/-- The `ensureOptionValue` function: the value the option holds afterwards,
or `none` when the message and the usage are printed and the process exits. -/
def ensureOptionValue (environ : String → String) (opt envVar : String) : Option String :=
  if decide (TrimSpace opt = "") || Contains opt envVar then
    if TrimSpace (Getenv environ envVar) = "" then none
    else some (Getenv environ envVar)
  else some opt

/-- The `main` function from `flag.Parse` on (lines 101-225), for the process
environment `environ`, started with the map objects of the decoded answers in
`heap`, an empty trace and an empty log. -/
def main (environ : String → String) (w : World) (opts : Options) (heap : Heap) : Run :=
  if opts.version then { final := { trace := [], logs := [], heap := heap }, outcome := .version }
  else
    match ensureOptionValue environ opts.url "RANCHER_URL" with
    | none =>
      { final := { trace := [], logs := [], heap := heap },
        outcome := .usage "Required Rancher URL" }
    | some url =>
      match ensureOptionValue environ opts.key "RANCHER_ACCESS_KEY" with
      | none =>
        { final := { trace := [], logs := [], heap := heap },
          outcome := .usage "Required Rancher access key" }
      | some key =>
        match ensureOptionValue environ opts.secret "RANCHER_SECRET_KEY" with
        | none =>
          { final := { trace := [], logs := [], heap := heap },
            outcome := .usage "Required Rancher access secret" }
        | some secret =>
          match ensureOptionValue environ opts.env "" with
          | none =>
            { final := { trace := [], logs := [], heap := heap },
              outcome := .usage "Required Rancher environment name" }
          | some env =>
            match ensureOptionValue environ opts.stack "CI_PROJECT_NAMESPACE" with
            | none =>
              { final := { trace := [], logs := [], heap := heap },
                outcome := .usage "Required Rancher stack name" }
            | some stack =>
              match ensureOptionValue environ opts.service "CI_PROJECT_NAME" with
              | none =>
                { final := { trace := [], logs := [], heap := heap },
                  outcome := .usage "Required Rancher service name" }
              | some service =>
                runFromClient w
                  { opts with url := url, key := key, secret := secret, env := env,
                              stack := stack, service := service } heap

/-- The actions posted in a trace, in order. -/
def actionsOf : List Event → List Action
  | [] => []
  | .action a _ _ _ :: rest => a :: actionsOf rest
  | _ :: rest => actionsOf rest

/-- Whether a request is a status fetch. -/
def Event.isStatus : Event → Bool
  | .status _ _ _ => true
  | _ => false

/-- What the sidekick loop leaves in the map at an address it visits: the
image is overwritten when an override matches the `name`, nothing else. -/
def overridden (h : Heap) (imgs : SidekickImageParams) (c : Addr) : GoMap :=
  match firstOverride (h c "name") imgs with
  | some img => Function.update (h c) "imageUuid" (some (.str ("docker:" ++ img.Name)))
  | none => h c

/-! ## Sample inputs -/

/-- A heap with three maps: the launch configuration `{imageUuid: docker:old,
tty: true}` at address 0, and the secondary configurations named `cache` and
`log` at addresses 1 and 2. -/
def sampleHeap : Heap := fun a k =>
  if a = 0 then
    (if k = "imageUuid" then some (.str "docker:old")
     else if k = "tty" then some (.bool true) else none)
  else if a = 1 then
    (if k = "name" then some (.str "cache")
     else if k = "imageUuid" then some (.str "docker:redis:5") else none)
  else if a = 2 then
    (if k = "name" then some (.str "log")
     else if k = "imageUuid" then some (.str "docker:fluentd:1") else none)
  else none

/-- A service snapshot over `sampleHeap`, in the given state. -/
def sampleService (state : String) : Service :=
  { ID := "1s5", EnvID := "1a7", StackID := "1st3", Name := "api", State := state,
    HealthState := "healthy", LaunchConfig := some 0,
    SecondaryLaunchConfigs := [some 1, some 2] }

/-- Options of a run on the sample platform: time-out of two seconds (one
poll per wait), waiting enabled, with or without the automatic finish. -/
def sampleOptions (finish : Bool) : Options :=
  { debug := false, version := false, url := "http://rancher:8080", key := "key",
    secret := "secret",
    env := "Default", stack := "web", service := "api", image := "api:1.2.3",
    startFirst := false, batchSize := 1, batchInterval := 2, upgradeTimeout := 2,
    waiteUpgradeFinish := true, finishUpgrade := finish, upgradeSidekicks := false,
    newSidekickImage := [] }

/-- Status answers of a run that finds the service in state `upgraded`: the
pre-check poll (request 4) sees `active`, the poll of the wait for `upgraded`
(request 6) sees `upgraded`, the status fetch after it (request 7) sees an
unhealthy service, and the later polls see `active`. -/
def statusUnhealthyAfterUpgrade (n : Nat) : StatusReply :=
  if n = 4 then .service "active" "healthy"
  else if n = 6 then .service "upgraded" "healthy"
  else if n = 7 then .service "upgraded" "unhealthy"
  else .service "active" "healthy"

/-- Status answers of a slow upgrade: the service is still `upgrading` up to
request 5 and `active` afterwards. -/
def statusSlowUpgrade (n : Nat) : StatusReply :=
  if n ≤ 5 then .service "upgrading" "healthy" else .service "active" "healthy"

/-- The client built from `sampleOptions`. -/
def sampleClient : Client :=
  { debug := false,
    url := "http" ++ "://" ++ "key" ++ ":" ++ "secret" ++ "@" ++ "rancher:8080" ++ "/v1" }

/-- The state of a run on the sample platform once the service is found. -/
def sampleFound : Sys :=
  { trace := [.list "projects?limit=1000",
              .list ("projects/" ++ "1a7" ++ "/environments?limit=1000"),
              .list ("projects/" ++ "1a7" ++ "/environments/" ++ "1st3" ++
                "/services?limit=1000")],
    logs := [], heap := sampleHeap }

/-- The item `el` is the first of the list `items`, in listing order, whose
name is `name`. -/
def IsFirstNamed (name : String) (items : List ConfigItem) (el : ConfigItem) : Prop :=
  ∃ pre post, items = pre ++ el :: post ∧ el.Name = name ∧ ∀ x ∈ pre, x.Name ≠ name

/-- The error text is that of a rejected argument. -/
def IsValidationError (msg : String) : Prop :=
  ∃ arg, msg = "argument [" ++ arg ++ "] can't be blank" ∨
    msg = "argument [" ++ arg ++ "] can't be null"

/-- An empty configuration item with an identifier, a name and a state. -/
def sampleItem (id name state : String) : ConfigItem :=
  { ID := id, Name := name, State := state, HealthState := "healthy",
    LaunchConfig := some 0, SecondaryLaunchConfigs := [some 1, some 2] }

/-- A platform with the environment `Default`, the stack `web` and the service
`api` in the given state; the first three requests of a run are the three
listings.  Every POST is accepted and the status fetches are answered by
`status`, from the number of requests made before. -/
def sampleWorld (startState : String) (status : Nat → StatusReply) : World :=
  { urlParse := fun _ => .ok ("http", "rancher:8080"),
    items := fun n _ =>
      match n with
      | 0 => .ok [sampleItem "1a7" "Default" "active"]
      | 1 => .ok [sampleItem "1st3" "web" "active"]
      | _ => .ok [sampleItem "1s5" "api" startState],
    service := fun n _ _ => status n,
    post := fun _ _ _ _ => .sent }

/-- The state a run starts in, over `sampleHeap`. -/
def sampleStart : Sys :=
  { trace := [], logs := [], heap := sampleHeap }

/-- A listing in which two items share the name `api`. -/
def sampleListing : List ConfigItem :=
  [sampleItem "1s4" "db" "active", sampleItem "1s5" "api" "active",
   sampleItem "1s9" "api" "upgraded"]

/-- A platform that answers every listing with `sampleListing`. -/
def sampleListingWorld : World :=
  { urlParse := fun _ => .ok ("http", "rancher:8080"),
    items := fun _ _ => .ok sampleListing,
    service := fun _ _ _ => .transportError,
    post := fun _ _ _ _ => .sent }

/-- The value `state` holds after a poll answered by `reply`: the state
returned, or the empty string when the poll failed. -/
def polledState (reply : StatusReply) : String :=
  match reply.observed with
  | .ok s => s
  | _ => ""

/-! ## Facts about the string helpers -/

theorem splitColonChars_ne_nil (cs : List Char) : splitColonChars cs ≠ [] := by
  cases cs with
  | nil => simp [splitColonChars]
  | cons c cs =>
    unfold splitColonChars
    split
    · simp
    · split <;> simp

theorem splitColonChars_of_count_zero (cs : List Char) (h : cs.count ':' = 0) :
    splitColonChars cs = [cs] := by
  induction cs with
  | nil => rfl
  | cons c cs ih =>
    have hc : c ≠ ':' := by
      intro hc
      subst hc
      simp at h
    have h0 : cs.count ':' = 0 := by
      rw [List.count_cons] at h
      omega
    unfold splitColonChars
    rw [if_neg hc, ih h0]

theorem splitColonChars_of_count_one (cs : List Char) (h : cs.count ':' = 1) :
    ∃ a b, splitColonChars cs = [a, b] ∧ a ++ ':' :: b = cs ∧
      a.count ':' = 0 ∧ b.count ':' = 0 := by
  induction cs with
  | nil => simp at h
  | cons c cs ih =>
    by_cases hc : c = ':'
    · subst hc
      have h0 : cs.count ':' = 0 := by
        rw [List.count_cons] at h
        simpa using h
      refine ⟨[], cs, ?_, rfl, rfl, h0⟩
      unfold splitColonChars
      rw [if_pos rfl, splitColonChars_of_count_zero cs h0]
    · have h1 : cs.count ':' = 1 := by
        rw [List.count_cons] at h
        have : (c == ':') = false := by simpa using hc
        simpa [this] using h
      obtain ⟨a, b, hs, hab, ha, hb⟩ := ih h1
      refine ⟨c :: a, b, ?_, by rw [← hab]; rfl, ?_, hb⟩
      · unfold splitColonChars
        rw [if_neg hc, hs]
      · rw [List.count_cons, ha]
        have : (c == ':') = false := by simpa using hc
        simp [this]

/-! ## C10: the sidekick image flag -/

/-- C10: `Set` fails exactly when the value holds more than one colon and then
leaves the list unchanged; otherwise it appends exactly one override after the
existing entries: with no colon the name is the value and the tag is empty,
with one colon the name is the text before the colon and the tag the text after
it, so that name, colon, tag spell the value. -/
theorem Set_parses_name_tag (i : SidekickImageParams) (v : String) :
    ((SidekickImageParams.Set i v).2 ≠ .ok () ↔ 1 < countColon v) ∧
    (1 < countColon v →
      SidekickImageParams.Set i v =
        (i, .err ("Invalid format docker image name [" ++ v ++ "]"))) ∧
    (countColon v = 0 →
      SidekickImageParams.Set i v = (i ++ [{ Name := v, Tag := "" }], .ok ())) ∧
    (countColon v = 1 →
      ∃ name tag : String,
        SidekickImageParams.Set i v = (i ++ [{ Name := name, Tag := tag }], .ok ()) ∧
        name ++ ":" ++ tag = v ∧ countColon name = 0 ∧ countColon tag = 0) := by
  have hone : countColon v = 1 →
      ∃ name tag : String,
        SidekickImageParams.Set i v = (i ++ [{ Name := name, Tag := tag }], .ok ()) ∧
        name ++ ":" ++ tag = v ∧ countColon name = 0 ∧ countColon tag = 0 := by
    intro h
    obtain ⟨a, b, hs, hab, ha, hb⟩ := splitColonChars_of_count_one v.data h
    refine ⟨⟨a⟩, ⟨b⟩, ?_, ?_, ha, hb⟩
    · unfold SidekickImageParams.Set
      simp [h, splitColon, hs]
    · apply String.ext
      simp [← hab]
  refine ⟨?_, ?_, ?_, hone⟩
  · constructor
    · intro hne
      by_contra hle
      have hcases : countColon v = 0 ∨ countColon v = 1 := by omega
      rcases hcases with h0 | h1
      · apply hne
        unfold SidekickImageParams.Set
        simp [h0]
      · obtain ⟨name, tag, hset, -⟩ := hone h1
        apply hne
        rw [hset]
    · intro h
      unfold SidekickImageParams.Set
      simp [h]
  · intro h
    unfold SidekickImageParams.Set
    simp [h]
  · intro h
    unfold SidekickImageParams.Set
    simp [h]

/-! ## Facts about the heap and the sidekick loop -/

theorem store_same (h : Heap) (a : Addr) (k : String) (v : Value) :
    h.store a k v a k = some v := by
  simp [Heap.store]

theorem store_other_key (h : Heap) (a : Addr) (k k2 : String) (v : Value) (hk : k2 ≠ k) :
    h.store a k v a k2 = h a k2 := by
  simp [Heap.store, Function.update_noteq hk]

theorem store_other_addr (h : Heap) (a c : Addr) (k : String) (v : Value) (hc : c ≠ a) :
    h.store a k v c = h c := by
  simp [Heap.store, Function.update_noteq hc]

theorem eqString_iff (x : Option Value) (s : String) :
    eqString x s = true ↔ x = some (.str s) := by
  unfold eqString
  split
  · simp
  · rename_i hne
    constructor
    · intro hf
      cases hf
    · intro hx
      exact (hne s hx).elim

theorem firstOverride_some {x : Option Value} {imgs : SidekickImageParams}
    {img : SidekickImageParamType} (h : firstOverride x imgs = some img) :
    img ∈ imgs ∧ x = some (.str img.Name) := by
  induction imgs with
  | nil => simp [firstOverride] at h
  | cons i rest ih =>
    unfold firstOverride at h
    split at h
    · rename_i hm
      have hi : i = img := by simpa using h
      subst hi
      exact ⟨List.mem_cons_self _ _, (eqString_iff _ _).1 hm⟩
    · obtain ⟨hmem, hx⟩ := ih h
      exact ⟨List.mem_cons_of_mem _ hmem, hx⟩

theorem firstOverride_none {x : Option Value} {imgs : SidekickImageParams}
    (h : firstOverride x imgs = none) :
    ∀ img ∈ imgs, x ≠ some (.str img.Name) := by
  induction imgs with
  | nil => simp
  | cons i rest ih =>
    unfold firstOverride at h
    split at h
    · cases h
    · rename_i hm
      intro img himg
      rcases List.mem_cons.1 himg with rfl | hrest
      · intro hx
        exact hm ((eqString_iff _ _).2 hx)
      · exact ih h img hrest

theorem firstOverride_of_mem {x : Option Value} {imgs : SidekickImageParams}
    {img : SidekickImageParamType} (hmem : img ∈ imgs) (hx : x = some (.str img.Name)) :
    ∃ img2, firstOverride x imgs = some img2 ∧ img2.Name = img.Name := by
  cases hfo : firstOverride x imgs with
  | none => exact absurd hx (firstOverride_none hfo img hmem)
  | some img2 =>
    refine ⟨img2, rfl, ?_⟩
    have h2 := (firstOverride_some hfo).2
    rw [hx] at h2
    simpa using h2.symm

theorem rewriteSidekicks_spec (imgs : SidekickImageParams) :
    ∀ (cfgs : List LaunchConfig) (h : Heap),
      (rewriteSidekicks h cfgs imgs).2 = .ok () ∧
      ∀ c, (rewriteSidekicks h cfgs imgs).1 c =
        if some c ∈ cfgs then overridden h imgs c else h c := by
  intro cfgs
  induction cfgs with
  | nil =>
    intro h
    simp [rewriteSidekicks]
  | cons cfg rest ih =>
    intro h
    cases cfg with
    | none =>
      have hno : firstOverride (h.load none "name") imgs = none := by
        cases hfo : firstOverride (h.load none "name") imgs with
        | none => rfl
        | some img =>
          have := (firstOverride_some hfo).2
          simp [Heap.load] at this
      unfold rewriteSidekicks
      rw [hno]
      refine ⟨(ih h).1, ?_⟩
      intro c
      rw [(ih h).2 c]
      simp
    | some a =>
      cases hfo : firstOverride (h.load (some a) "name") imgs with
      | none =>
        unfold rewriteSidekicks
        rw [hfo]
        refine ⟨(ih h).1, ?_⟩
        intro c
        rw [(ih h).2 c]
        by_cases hca : c = a
        · subst hca
          have hov : overridden h imgs c = h c := by
            unfold overridden
            simp only [Heap.load] at hfo
            rw [hfo]
          simp [hov]
        · have : some c ≠ some a := by simpa using hca
          simp [hca]
      | some img =>
        unfold rewriteSidekicks
        rw [hfo]
        simp only
        set h1 := h.store a "imageUuid" (.str ("docker:" ++ img.Name)) with hh1
        refine ⟨(ih h1).1, ?_⟩
        intro c
        rw [(ih h1).2 c]
        have hname : ∀ d, h1 d "name" = h d "name" := by
          intro d
          by_cases hda : d = a
          · subst hda
            rw [hh1]
            exact store_other_key h d "imageUuid" "name" _ (by decide)
          · rw [hh1, store_other_addr h a d _ _ hda]
        have hov1 : overridden h1 imgs a = overridden h imgs a := by
          unfold overridden
          rw [hname a]
          simp only [Heap.load] at hfo
          rw [hfo]
          simp [hh1, Heap.store]
        have hh1a : h1 a = overridden h imgs a := by
          unfold overridden
          simp only [Heap.load] at hfo
          rw [hfo]
          simp [hh1, Heap.store]
        by_cases hca : c = a
        · subst hca
          simp [hov1, hh1a]
        · have hov : overridden h1 imgs c = overridden h imgs c := by
            unfold overridden
            rw [hname c, hh1, store_other_addr h a c _ _ hca]
          have hh1c : h1 c = h c := by
            rw [hh1, store_other_addr h a c _ _ hca]
          simp [hca, hov, hh1c]

theorem overridden_nil (h : Heap) (c : Addr) : overridden h [] c = h c := by
  simp [overridden, firstOverride]

/-- The heap and the request a call of the builder ends with, when the image
is not blank and the launch configuration is a map. -/
theorem NewUpgradeRequest_ok (h : Heap) (s : Service) (a : Addr) (bs bi : Int) (sf : Bool)
    (image : String) (sidekicks : Bool) (imgs : SidekickImageParams)
    (hcfg : s.LaunchConfig = some a) (himg : TrimSpace image ≠ "") :
    NewUpgradeRequest h (some s) bs bi sf image sidekicks (some imgs) =
      ((fun c =>
          if some c ∈ (if sidekicks then s.SecondaryLaunchConfigs else [])
          then overridden ((h.store a "imageUuid" (.str ("docker:" ++ TrimSpace image))).store a
            "secrets" .emptyStringArray) imgs c
          else ((h.store a "imageUuid" (.str ("docker:" ++ TrimSpace image))).store a
            "secrets" .emptyStringArray) c),
       .ok { InServiceStrategy :=
              { BatchSize := bs,
                IntervalMills := wrapInt64 (bi * 1000),
                StartFirst := sf,
                LaunchConfig := some a,
                SecondaryLaunchConfigs := if sidekicks then s.SecondaryLaunchConfigs else [] } }) := by
  unfold NewUpgradeRequest
  simp only [himg, if_false, hcfg]
  by_cases hlen : imgs.length = 0
  · have hnil : imgs = [] := List.length_eq_zero.1 hlen
    subst hnil
    simp only [List.length_nil, if_true]
    congr 1
    funext c
    simp [overridden_nil]
  · simp only [hlen, if_false]
    have hspec := rewriteSidekicks_spec imgs (if sidekicks then s.SecondaryLaunchConfigs else [])
      ((h.store a "imageUuid" (.str ("docker:" ++ TrimSpace image))).store a
        "secrets" .emptyStringArray)
    generalize hrw : rewriteSidekicks ((h.store a "imageUuid"
      (.str ("docker:" ++ TrimSpace image))).store a "secrets" .emptyStringArray)
      (if sidekicks then s.SecondaryLaunchConfigs else []) imgs = r at hspec
    obtain ⟨h3, res⟩ := r
    obtain ⟨hres, hheap⟩ := hspec
    simp only at hres hheap
    subst hres
    simp only
    congr 1
    funext c
    exact hheap c

/-! ## C1, C2, C9: the upgrade request builder -/

/-- C1: for a service snapshot whose launch configuration is a map (at an
address no secondary configuration shares, as in every decoded snapshot) and a
non-blank image, the builder returns a request whose launch configuration maps
`imageUuid` to `docker:` followed by the trimmed image, `secrets` to the empty
string array, and every other key to what the service's launch configuration
held, absent keys staying absent. -/
theorem NewUpgradeRequest_launchConfig (h : Heap) (s : Service) (a : Addr) (bs bi : Int)
    (sf : Bool) (image : String) (sidekicks : Bool) (imgs : SidekickImageParams)
    (hcfg : s.LaunchConfig = some a) (himg : TrimSpace image ≠ "")
    (hown : some a ∉ s.SecondaryLaunchConfigs) :
    ∃ h2 req,
      NewUpgradeRequest h (some s) bs bi sf image sidekicks (some imgs) = (h2, .ok req) ∧
      h2.load req.InServiceStrategy.LaunchConfig "imageUuid" =
        some (.str ("docker:" ++ TrimSpace image)) ∧
      h2.load req.InServiceStrategy.LaunchConfig "secrets" = some .emptyStringArray ∧
      ∀ k, k ≠ "imageUuid" → k ≠ "secrets" →
        h2.load req.InServiceStrategy.LaunchConfig k = h.load s.LaunchConfig k := by
  refine ⟨_, _, NewUpgradeRequest_ok h s a bs bi sf image sidekicks imgs hcfg himg, ?_, ?_, ?_⟩
  · have hno : some a ∉ (if sidekicks then s.SecondaryLaunchConfigs else []) := by
      cases sidekicks <;> simp [hown]
    simp only [Heap.load, if_neg hno]
    rw [store_other_key _ a "secrets" "imageUuid" _ (by decide), store_same]
  · have hno : some a ∉ (if sidekicks then s.SecondaryLaunchConfigs else []) := by
      cases sidekicks <;> simp [hown]
    simp only [Heap.load, if_neg hno]
    rw [store_same]
  · intro k hk1 hk2
    have hno : some a ∉ (if sidekicks then s.SecondaryLaunchConfigs else []) := by
      cases sidekicks <;> simp [hown]
    simp only [Heap.load, if_neg hno, hcfg]
    rw [store_other_key _ a "secrets" k _ hk2, store_other_key _ a "imageUuid" k _ hk1]

/-- C1 at the service `{imageUuid: docker:old, tty: true}` and the image
`app:2` written with surrounding blanks. -/
theorem NewUpgradeRequest_launchConfig_witness :
    ∃ h2 req,
      NewUpgradeRequest sampleHeap (some (sampleService "active")) 1 2 false "  app:2 " true
        (some []) = (h2, .ok req) ∧
      h2.load req.InServiceStrategy.LaunchConfig "imageUuid" =
        some (.str ("docker:" ++ TrimSpace "  app:2 ")) ∧
      h2.load req.InServiceStrategy.LaunchConfig "secrets" = some .emptyStringArray ∧
      ∀ k, k ≠ "imageUuid" → k ≠ "secrets" →
        h2.load req.InServiceStrategy.LaunchConfig k =
          sampleHeap.load (sampleService "active").LaunchConfig k :=
  NewUpgradeRequest_launchConfig sampleHeap (sampleService "active") 0 1 2 false "  app:2 " true
    [] rfl (by decide) (by decide)

/-- C2: on a successful call the request's secondary configurations are empty
when sidekicks are not included, whatever the service and the overrides; when
they are included they are the service's list, an entry whose `name` is the
name of a supplied override has `imageUuid` set to `docker:` followed by that
name (the tag plays no part) with its other keys kept, and an entry whose name
matches no override is as it was.  The launch configuration is at an address
no secondary configuration shares, as in every decoded snapshot. -/
theorem NewUpgradeRequest_secondary (h : Heap) (s : Service) (a : Addr) (bs bi : Int)
    (sf : Bool) (image : String) (sidekicks : Bool) (imgs : SidekickImageParams)
    (hcfg : s.LaunchConfig = some a) (himg : TrimSpace image ≠ "")
    (hown : some a ∉ s.SecondaryLaunchConfigs) :
    ∃ h2 req,
      NewUpgradeRequest h (some s) bs bi sf image sidekicks (some imgs) = (h2, .ok req) ∧
      (sidekicks = false → req.InServiceStrategy.SecondaryLaunchConfigs = []) ∧
      (sidekicks = true →
        req.InServiceStrategy.SecondaryLaunchConfigs = s.SecondaryLaunchConfigs ∧
        ∀ cfg ∈ s.SecondaryLaunchConfigs,
          (∀ img ∈ imgs, h.load cfg "name" = some (.str img.Name) →
            h2.load cfg "imageUuid" = some (.str ("docker:" ++ img.Name)) ∧
            ∀ k, k ≠ "imageUuid" → h2.load cfg k = h.load cfg k) ∧
          ((∀ img ∈ imgs, h.load cfg "name" ≠ some (.str img.Name)) →
            ∀ k, h2.load cfg k = h.load cfg k)) := by
  refine ⟨_, _, NewUpgradeRequest_ok h s a bs bi sf image sidekicks imgs hcfg himg, ?_, ?_⟩
  · intro hs
    simp [hs]
  · intro hs
    subst hs
    refine ⟨by simp, ?_⟩
    intro cfg hmem
    cases cfg with
    | none =>
      refine ⟨?_, ?_⟩
      · intro img _ hname
        simp [Heap.load] at hname
      · intro _ k
        rfl
    | some c =>
      have hca : c ≠ a := by
        intro hca
        subst hca
        exact hown hmem
      have hbase : ∀ k, ((h.store a "imageUuid" (.str ("docker:" ++ TrimSpace image))).store a
          "secrets" .emptyStringArray) c k = h c k := by
        intro k
        rw [store_other_addr _ a c _ _ hca, store_other_addr _ a c _ _ hca]
      simp only [Heap.load, if_true, if_pos hmem]
      refine ⟨?_, ?_⟩
      · intro img himg hname
        obtain ⟨img2, hfo, hn2⟩ := firstOverride_of_mem (x := ((h.store a "imageUuid"
          (.str ("docker:" ++ TrimSpace image))).store a "secrets" .emptyStringArray) c "name")
          himg (by rw [hbase]; exact hname)
        unfold overridden
        rw [hfo]
        refine ⟨by simp [hn2], ?_⟩
        intro k hk
        simp only
        rw [Function.update_noteq hk, hbase]
      · intro hnone k
        have hfo : firstOverride (((h.store a "imageUuid"
            (.str ("docker:" ++ TrimSpace image))).store a "secrets" .emptyStringArray) c "name")
            imgs = none := by
          cases hfo : firstOverride (((h.store a "imageUuid"
            (.str ("docker:" ++ TrimSpace image))).store a "secrets" .emptyStringArray) c "name")
            imgs with
          | none => rfl
          | some img =>
            obtain ⟨hm, hx⟩ := firstOverride_some hfo
            rw [hbase] at hx
            exact absurd hx (hnone img hm)
        unfold overridden
        rw [hfo]
        exact hbase k

/-- C2 at one override named `cache` (with a tag) and the secondary
configurations named `cache` and `log`. -/
theorem NewUpgradeRequest_secondary_witness :
    ∃ h2 req,
      NewUpgradeRequest sampleHeap (some (sampleService "active")) 1 2 false "app:2" true
        (some [{ Name := "cache", Tag := "7" }]) = (h2, .ok req) ∧
      (true = false → req.InServiceStrategy.SecondaryLaunchConfigs = []) ∧
      (true = true →
        req.InServiceStrategy.SecondaryLaunchConfigs =
          (sampleService "active").SecondaryLaunchConfigs ∧
        ∀ cfg ∈ (sampleService "active").SecondaryLaunchConfigs,
          (∀ img ∈ [({ Name := "cache", Tag := "7" } : SidekickImageParamType)],
            sampleHeap.load cfg "name" = some (.str img.Name) →
            h2.load cfg "imageUuid" = some (.str ("docker:" ++ img.Name)) ∧
            ∀ k, k ≠ "imageUuid" → h2.load cfg k = sampleHeap.load cfg k) ∧
          ((∀ img ∈ [({ Name := "cache", Tag := "7" } : SidekickImageParamType)],
              sampleHeap.load cfg "name" ≠ some (.str img.Name)) →
            ∀ k, h2.load cfg k = sampleHeap.load cfg k)) :=
  NewUpgradeRequest_secondary sampleHeap (sampleService "active") 0 1 2 false "app:2" true
    [{ Name := "cache", Tag := "7" }] rfl (by decide) (by decide)

/-- C9, as stated, fails: after a successful call the service snapshot's own
launch configuration holds the new image instead of `docker:old`. -/
theorem NewUpgradeRequest_changes_snapshot :
    (NewUpgradeRequest sampleHeap (some (sampleService "active")) 1 2 false "app:2" false
        (some [])).2 =
      .ok { InServiceStrategy :=
              { BatchSize := 1, IntervalMills := 2000, StartFirst := false,
                LaunchConfig := some 0, SecondaryLaunchConfigs := [] } } ∧
    sampleHeap.load (sampleService "active").LaunchConfig "imageUuid" =
      some (.str "docker:old") ∧
    (NewUpgradeRequest sampleHeap (some (sampleService "active")) 1 2 false "app:2" false
        (some [])).1.load (sampleService "active").LaunchConfig "imageUuid" =
      some (.str "docker:app:2") ∧
    (NewUpgradeRequest sampleHeap (some (sampleService "active")) 1 2 false "app:2" false
        (some [])).1.load (sampleService "active").LaunchConfig "secrets" ≠
      sampleHeap.load (sampleService "active").LaunchConfig "secrets" := by
  rw [NewUpgradeRequest_ok sampleHeap (sampleService "active") 0 1 2 false "app:2" false []
    rfl (by decide)]
  have ht : TrimSpace "app:2" = "app:2" := by decide
  refine ⟨?_, ?_, ?_, ?_⟩
  · simp [wrapInt64]
  · simp [Heap.load, sampleService, sampleHeap]
  · simp [Heap.load, sampleService, Heap.store, ht]
  · simp [Heap.load, sampleService, Heap.store, sampleHeap]

/-- C9, amended: the builder copies no map.  On a successful call the
request's launch configuration is the service snapshot's own map and, with
sidekicks included, so are its secondary configurations; afterwards the
snapshot's launch configuration holds a `docker:` image and the empty string
array under `secrets`, and the only entries of any map that differ from before
are `imageUuid` and `secrets` of the launch configuration and, with sidekicks
included, `imageUuid` of a secondary configuration whose name is the name of
an override. -/
theorem NewUpgradeRequest_shares_maps (h : Heap) (s : Service) (a : Addr) (bs bi : Int)
    (sf : Bool) (image : String) (sidekicks : Bool) (imgs : SidekickImageParams)
    (hcfg : s.LaunchConfig = some a) (himg : TrimSpace image ≠ "") :
    ∃ h2 req,
      NewUpgradeRequest h (some s) bs bi sf image sidekicks (some imgs) = (h2, .ok req) ∧
      req.InServiceStrategy.LaunchConfig = s.LaunchConfig ∧
      (sidekicks = true →
        req.InServiceStrategy.SecondaryLaunchConfigs = s.SecondaryLaunchConfigs) ∧
      h2.load s.LaunchConfig "secrets" = some .emptyStringArray ∧
      (∃ v, h2.load s.LaunchConfig "imageUuid" = some (.str ("docker:" ++ v))) ∧
      ∀ c k, h2 c k ≠ h c k →
        (c = a ∧ (k = "imageUuid" ∨ k = "secrets")) ∨
        (sidekicks = true ∧ some c ∈ s.SecondaryLaunchConfigs ∧ k = "imageUuid" ∧
          ∃ img ∈ imgs, h c "name" = some (.str img.Name)) := by
  refine ⟨_, _, NewUpgradeRequest_ok h s a bs bi sf image sidekicks imgs hcfg himg,
    hcfg.symm, ?_, ?_, ?_, ?_⟩
  · intro hs
    simp [hs]
  · simp only [hcfg, Heap.load]
    by_cases hmem : some a ∈ (if sidekicks then s.SecondaryLaunchConfigs else [])
    · rw [if_pos hmem]
      unfold overridden
      cases firstOverride (((h.store a "imageUuid"
          (.str ("docker:" ++ TrimSpace image))).store a "secrets" .emptyStringArray) a "name")
          imgs with
      | none => exact store_same _ a "secrets" _
      | some img =>
        simp only
        rw [Function.update_noteq (by decide)]
        exact store_same _ a "secrets" _
    · rw [if_neg hmem]
      exact store_same _ a "secrets" _
  · simp only [hcfg, Heap.load]
    have himage : ((h.store a "imageUuid" (.str ("docker:" ++ TrimSpace image))).store a
        "secrets" .emptyStringArray) a "imageUuid" =
        some (.str ("docker:" ++ TrimSpace image)) := by
      rw [store_other_key _ a "secrets" "imageUuid" _ (by decide)]
      exact store_same _ a "imageUuid" _
    by_cases hmem : some a ∈ (if sidekicks then s.SecondaryLaunchConfigs else [])
    · rw [if_pos hmem]
      unfold overridden
      cases firstOverride (((h.store a "imageUuid"
          (.str ("docker:" ++ TrimSpace image))).store a "secrets" .emptyStringArray) a "name")
          imgs with
      | none => exact ⟨TrimSpace image, himage⟩
      | some img => exact ⟨img.Name, by simp⟩
    · rw [if_neg hmem]
      exact ⟨TrimSpace image, himage⟩
  · intro c k hne
    by_cases hck : c = a ∧ (k = "imageUuid" ∨ k = "secrets")
    · exact Or.inl hck
    · right
      have hname : ((h.store a "imageUuid" (.str ("docker:" ++ TrimSpace image))).store a
          "secrets" .emptyStringArray) c "name" = h c "name" := by
        by_cases hca : c = a
        · subst hca
          rw [store_other_key _ c "secrets" "name" _ (by decide),
            store_other_key _ c "imageUuid" "name" _ (by decide)]
        · rw [store_other_addr _ a c _ _ hca, store_other_addr _ a c _ _ hca]
      have hbase : ((h.store a "imageUuid" (.str ("docker:" ++ TrimSpace image))).store a
          "secrets" .emptyStringArray) c k = h c k := by
        by_cases hca : c = a
        · subst hca
          have hk1 : k ≠ "imageUuid" := fun hk => hck ⟨rfl, Or.inl hk⟩
          have hk2 : k ≠ "secrets" := fun hk => hck ⟨rfl, Or.inr hk⟩
          rw [store_other_key _ c "secrets" k _ hk2, store_other_key _ c "imageUuid" k _ hk1]
        · rw [store_other_addr _ a c _ _ hca, store_other_addr _ a c _ _ hca]
      by_cases hmem : some c ∈ (if sidekicks then s.SecondaryLaunchConfigs else [])
      · rw [if_pos hmem] at hne
        have hs : sidekicks = true := by
          cases sidekicks
          · simp at hmem
          · rfl
        subst hs
        simp only [if_true] at hmem
        refine ⟨rfl, hmem, ?_⟩
        unfold overridden at hne
        cases hfo : firstOverride (((h.store a "imageUuid"
            (.str ("docker:" ++ TrimSpace image))).store a "secrets" .emptyStringArray) c "name")
            imgs with
        | none =>
          rw [hfo] at hne
          exact absurd hbase hne
        | some img =>
          rw [hfo] at hne
          simp only at hne
          have hk : k = "imageUuid" := by
            by_contra hk
            rw [Function.update_noteq hk] at hne
            exact hne hbase
          obtain ⟨hm, hx⟩ := firstOverride_some hfo
          rw [hname] at hx
          exact ⟨hk, img, hm, hx⟩
      · rw [if_neg hmem] at hne
        exact absurd hbase hne

/-- The amended C9 at the sample service with sidekicks included and an
override named `cache`. -/
theorem NewUpgradeRequest_shares_maps_witness :
    ∃ h2 req,
      NewUpgradeRequest sampleHeap (some (sampleService "active")) 1 2 false "app:2" true
        (some [{ Name := "cache", Tag := "" }]) = (h2, .ok req) ∧
      req.InServiceStrategy.LaunchConfig = (sampleService "active").LaunchConfig ∧
      (true = true →
        req.InServiceStrategy.SecondaryLaunchConfigs =
          (sampleService "active").SecondaryLaunchConfigs) ∧
      h2.load (sampleService "active").LaunchConfig "secrets" = some .emptyStringArray ∧
      (∃ v, h2.load (sampleService "active").LaunchConfig "imageUuid" =
        some (.str ("docker:" ++ v))) ∧
      ∀ c k, h2 c k ≠ sampleHeap c k →
        (c = 0 ∧ (k = "imageUuid" ∨ k = "secrets")) ∨
        (true = true ∧ some c ∈ (sampleService "active").SecondaryLaunchConfigs ∧
          k = "imageUuid" ∧
          ∃ img ∈ [({ Name := "cache", Tag := "" } : SidekickImageParamType)],
            sampleHeap c "name" = some (.str img.Name)) :=
  NewUpgradeRequest_shares_maps sampleHeap (sampleService "active") 0 1 2 false "app:2" true
    [{ Name := "cache", Tag := "" }] rfl (by decide)

/-! ## C3, C8: name resolution and blank inputs -/

theorem firstNamed_some {name : String} {items : List ConfigItem} {el : ConfigItem}
    (h : firstNamed name items = some el) : IsFirstNamed name items el := by
  induction items with
  | nil => simp [firstNamed] at h
  | cons x rest ih =>
    unfold firstNamed at h
    split at h
    · rename_i hx
      have hxe : x = el := by simpa using h
      subst hxe
      exact ⟨[], rest, rfl, hx.symm, by simp⟩
    · rename_i hx
      obtain ⟨pre, post, hl, hn, hpre⟩ := ih h
      refine ⟨x :: pre, post, by rw [hl]; rfl, hn, ?_⟩
      intro y hy
      rcases List.mem_cons.1 hy with rfl | hy2
      · exact fun hyn => hx hyn.symm
      · exact hpre y hy2

theorem firstNamed_none {name : String} {items : List ConfigItem}
    (h : firstNamed name items = none) : ∀ x ∈ items, x.Name ≠ name := by
  induction items with
  | nil => simp
  | cons x rest ih =>
    unfold firstNamed at h
    split at h
    · cases h
    · rename_i hx
      intro y hy
      rcases List.mem_cons.1 hy with rfl | hy2
      · exact fun hyn => hx hyn.symm
      · exact ih h y hy2

theorem infix_of_brackets (pre name post : String) :
    name.data <:+: (pre ++ name ++ post).data :=
  ⟨pre.data, post.data, by simp [String.data_append]⟩

/-- C3, as stated, fails: asked for the name ` web` (with a leading blank), for
which the listing holds no item, `GetEnv` does not fail but returns the item
named `web`. -/
theorem GetEnv_compares_trimmed_name :
    (∀ x ∈ [sampleItem "1a7" "web" "active"], x.Name ≠ " web") ∧
    GetEnv { urlParse := fun _ => .ok ("http", "rancher:8080"),
             items := fun _ _ => .ok [sampleItem "1a7" "web" "active"],
             service := fun _ _ _ => .transportError,
             post := fun _ _ _ _ => .sent } sampleStart " web" =
      (sampleStart.emit (.list "projects?limit=1000"),
       .ok { ID := "1a7", Name := "web" }) := by
  have ht : TrimSpace " web" = "web" := by decide
  refine ⟨by simp [sampleItem], ?_⟩
  simp [GetEnv, ht, fetchItems, firstNamed, sampleItem]

/-- C3, amended: the three lookups compare the requested name with its
surrounding white space trimmed.  When the name and the scoping identifiers
are not blank and the listing succeeds with the items `L`, the lookup returns
the first item of `L`, in listing order, whose name equals the trimmed name,
with that item's identifier; otherwise no item of `L` has the trimmed name and
the lookup fails with an error whose text contains the trimmed name. -/
theorem lookups_return_first_trimmed_match (w : World) (st : Sys)
    (envName envID stackName stackID serviceName : String) (Le Ls Lv : List ConfigItem)
    (hEnvName : TrimSpace envName ≠ "") (hEnvID : TrimSpace envID ≠ "")
    (hStackName : TrimSpace stackName ≠ "") (hStackID : TrimSpace stackID ≠ "")
    (hServiceName : TrimSpace serviceName ≠ "")
    (hLe : w.items st.trace.length "projects?limit=1000" = .ok Le)
    (hLs : w.items st.trace.length
      ("projects/" ++ TrimSpace envID ++ "/environments?limit=1000") = .ok Ls)
    (hLv : w.items st.trace.length
      ("projects/" ++ TrimSpace envID ++ "/environments/" ++ TrimSpace stackID ++
        "/services?limit=1000") = .ok Lv) :
    ((∃ el, IsFirstNamed (TrimSpace envName) Le el ∧
        (GetEnv w st envName).2 = .ok { ID := el.ID, Name := el.Name }) ∨
      ((∀ x ∈ Le, x.Name ≠ TrimSpace envName) ∧
        ∃ msg, (GetEnv w st envName).2 = .err msg ∧ (TrimSpace envName).data <:+: msg.data)) ∧
    ((∃ el, IsFirstNamed (TrimSpace stackName) Ls el ∧
        (GetStack w st envID stackName).2 =
          .ok { ID := el.ID, EnvID := TrimSpace envID, Name := el.Name }) ∨
      ((∀ x ∈ Ls, x.Name ≠ TrimSpace stackName) ∧
        ∃ msg, (GetStack w st envID stackName).2 = .err msg ∧
          (TrimSpace stackName).data <:+: msg.data)) ∧
    ((∃ el, IsFirstNamed (TrimSpace serviceName) Lv el ∧
        (GetService w st envID stackID serviceName).2 =
          .ok { ID := el.ID, EnvID := TrimSpace envID, StackID := TrimSpace stackID,
                Name := el.Name, State := el.State, HealthState := el.HealthState,
                LaunchConfig := el.LaunchConfig,
                SecondaryLaunchConfigs := el.SecondaryLaunchConfigs }) ∨
      ((∀ x ∈ Lv, x.Name ≠ TrimSpace serviceName) ∧
        ∃ msg, (GetService w st envID stackID serviceName).2 = .err msg ∧
          (TrimSpace serviceName).data <:+: msg.data)) := by
  refine ⟨?_, ?_, ?_⟩
  · cases hf : firstNamed (TrimSpace envName) Le with
    | some el =>
      left
      refine ⟨el, firstNamed_some hf, ?_⟩
      simp [GetEnv, hEnvName, fetchItems, hLe, hf]
    | none =>
      right
      refine ⟨firstNamed_none hf, _, ?_, infix_of_brackets "environment [" (TrimSpace envName)
        "] doesn't exist in Rancher, or your API credentials don't have access to it"⟩
      simp [GetEnv, hEnvName, fetchItems, hLe, hf]
  · cases hf : firstNamed (TrimSpace stackName) Ls with
    | some el =>
      left
      refine ⟨el, firstNamed_some hf, ?_⟩
      simp [GetStack, hEnvID, hStackName, fetchItems, hLs, hf]
    | none =>
      right
      refine ⟨firstNamed_none hf, _, ?_, infix_of_brackets "stack [" (TrimSpace stackName)
        "] doesn't exist in Rancher, or your API credentials don't have access to it"⟩
      simp [GetStack, hEnvID, hStackName, fetchItems, hLs, hf]
  · cases hf : firstNamed (TrimSpace serviceName) Lv with
    | some el =>
      left
      refine ⟨el, firstNamed_some hf, ?_⟩
      simp [GetService, hEnvID, hStackID, hServiceName, fetchItems, hLv, hf]
    | none =>
      right
      refine ⟨firstNamed_none hf, _, ?_, infix_of_brackets "service [" (TrimSpace serviceName)
        "] doesn't exist in Rancher, or your API credentials don't have access to it"⟩
      simp [GetService, hEnvID, hStackID, hServiceName, fetchItems, hLv, hf]

/-- The amended C3 at a listing with two items named `api`, asked for ` api `
within ` 1a7` and `1st3 `. -/
theorem lookups_return_first_trimmed_match_witness :
    ((∃ el, IsFirstNamed (TrimSpace " api ") sampleListing el ∧
        (GetEnv sampleListingWorld sampleStart " api ").2 =
          .ok { ID := el.ID, Name := el.Name }) ∨
      ((∀ x ∈ sampleListing, x.Name ≠ TrimSpace " api ") ∧
        ∃ msg, (GetEnv sampleListingWorld sampleStart " api ").2 = .err msg ∧
          (TrimSpace " api ").data <:+: msg.data)) ∧
    ((∃ el, IsFirstNamed (TrimSpace " api ") sampleListing el ∧
        (GetStack sampleListingWorld sampleStart " 1a7" " api ").2 =
          .ok { ID := el.ID, EnvID := TrimSpace " 1a7", Name := el.Name }) ∨
      ((∀ x ∈ sampleListing, x.Name ≠ TrimSpace " api ") ∧
        ∃ msg, (GetStack sampleListingWorld sampleStart " 1a7" " api ").2 = .err msg ∧
          (TrimSpace " api ").data <:+: msg.data)) ∧
    ((∃ el, IsFirstNamed (TrimSpace " api ") sampleListing el ∧
        (GetService sampleListingWorld sampleStart " 1a7" "1st3 " " api ").2 =
          .ok { ID := el.ID, EnvID := TrimSpace " 1a7", StackID := TrimSpace "1st3 ",
                Name := el.Name, State := el.State, HealthState := el.HealthState,
                LaunchConfig := el.LaunchConfig,
                SecondaryLaunchConfigs := el.SecondaryLaunchConfigs }) ∨
      ((∀ x ∈ sampleListing, x.Name ≠ TrimSpace " api ") ∧
        ∃ msg, (GetService sampleListingWorld sampleStart " 1a7" "1st3 " " api ").2 =
            .err msg ∧
          (TrimSpace " api ").data <:+: msg.data)) :=
  lookups_return_first_trimmed_match sampleListingWorld sampleStart " api " " 1a7" " api "
    "1st3 " " api " sampleListing sampleListing sampleListing
    (by decide) (by decide) (by decide) (by decide) (by decide) rfl rfl rfl

/-- C8: a blank name or scoping identifier makes `GetEnv`, `GetStack` and
`GetService` fail with the error of a rejected argument and leaves the state
as it was, so that no listing is fetched; a blank image or an absent service
makes the builder fail in the same way and leaves every map as it was. -/
theorem blank_input_is_rejected (w : World) (st : Sys) (h : Heap) :
    (∀ envName, TrimSpace envName = "" →
      ∃ msg, GetEnv w st envName = (st, .err msg) ∧ IsValidationError msg) ∧
    (∀ envID stackName, TrimSpace envID = "" ∨ TrimSpace stackName = "" →
      ∃ msg, GetStack w st envID stackName = (st, .err msg) ∧ IsValidationError msg) ∧
    (∀ envID stackID serviceName,
      TrimSpace envID = "" ∨ TrimSpace stackID = "" ∨ TrimSpace serviceName = "" →
      ∃ msg, GetService w st envID stackID serviceName = (st, .err msg) ∧
        IsValidationError msg) ∧
    (∀ service bs bi sf image sidekicks overrides, TrimSpace image = "" ∨ service = none →
      ∃ msg, NewUpgradeRequest h service bs bi sf image sidekicks overrides = (h, .err msg) ∧
        IsValidationError msg) := by
  refine ⟨?_, ?_, ?_, ?_⟩
  · intro envName hb
    exact ⟨_, by simp [GetEnv, hb], "envName", Or.inl rfl⟩
  · intro envID stackName hb
    by_cases h1 : TrimSpace envID = ""
    · exact ⟨_, by simp [GetStack, h1], "envID", Or.inl rfl⟩
    · have h2 : TrimSpace stackName = "" := hb.resolve_left h1
      exact ⟨_, by simp [GetStack, h1, h2], "stackName", Or.inl rfl⟩
  · intro envID stackID serviceName hb
    by_cases h1 : TrimSpace envID = ""
    · exact ⟨_, by simp [GetService, h1], "envID", Or.inl rfl⟩
    · by_cases h2 : TrimSpace stackID = ""
      · exact ⟨_, by simp [GetService, h1, h2], "stackID", Or.inl rfl⟩
      · have h3 : TrimSpace serviceName = "" := (hb.resolve_left h1).resolve_left h2
        exact ⟨_, by simp [GetService, h1, h2, h3], "serviceName", Or.inl rfl⟩
  · intro service bs bi sf image sidekicks overrides hb
    by_cases h1 : TrimSpace image = ""
    · exact ⟨_, by simp [NewUpgradeRequest, h1], "image", Or.inl rfl⟩
    · have h2 : service = none := hb.resolve_left h1
      subst h2
      exact ⟨_, by simp [NewUpgradeRequest, h1], "service", Or.inr rfl⟩

/-! ## Facts about the wait loop -/

theorem actionsOf_append (xs ys : List Event) :
    actionsOf (xs ++ ys) = actionsOf xs ++ actionsOf ys := by
  induction xs with
  | nil => rfl
  | cons e rest ih =>
    cases e <;> simp [actionsOf, ih]

theorem actionsOf_of_status {xs : List Event} (h : ∀ e ∈ xs, e.isStatus = true) :
    actionsOf xs = [] := by
  induction xs with
  | nil => rfl
  | cons e rest ih =>
    have he := h e (List.mem_cons_self _ _)
    cases e with
    | list uri => simp [Event.isStatus] at he
    | action a e i r => simp [Event.isStatus] at he
    | status e i r =>
      simp only [actionsOf]
      exact ih (fun x hx => h x (List.mem_cons_of_mem _ hx))

theorem waitLoop_done (w : World) (service : Service) (timeout : Int) (targetState : String)
    (attempts : Int) (state : String) (st : Sys) (h : ¬ attempts < timeout) :
    waitLoop w service timeout targetState attempts state st =
      (st, .err (waitError state targetState)) := by
  rw [waitLoop, if_neg h]

theorem waitLoop_poll (w : World) (service : Service) (timeout : Int) (targetState : String)
    (attempts : Int) (state : String) (st : Sys) (h : attempts < timeout) :
    waitLoop w service timeout targetState attempts state st =
      (let reply := w.service st.trace.length service.EnvID service.ID
       let st1 : Sys :=
         match reply.observed with
         | .ok _ => st.emit (.status service.EnvID service.ID reply)
         | .err e => (st.emit (.status service.EnvID service.ID reply)).log e
         | .panic e => (st.emit (.status service.EnvID service.ID reply)).log e
       if polledState reply = targetState then (st1, .ok ())
       else waitLoop w service timeout targetState (attempts + WaitInterval)
         (polledState reply) st1) := by
  rw [waitLoop, if_pos h]
  simp only [GetServiceStatus, polledState]
  cases w.service st.trace.length service.EnvID service.ID with
  | transportError => simp [StatusReply.observed]
  | decodeError msg => simp [StatusReply.observed]
  | service s hl =>
    by_cases hh : hl = "unhealthy" <;> simp [StatusReply.observed, hh]

/-- C6: the code at a wait whose only poll fails.  The snapshot is in state
`upgrading`, the timeout allows one poll and that poll fails: the error names
the empty string as the current state, not `upgrading`; and a wait for the
empty target state is ended with success by the failed poll. -/
theorem WaitForServiceState_failed_poll_loses_state :
    WaitForServiceState (sampleWorld "upgrading" (fun _ => .transportError)) sampleStart
        (some (sampleService "upgrading")) 2 "active" =
      ((sampleStart.emit (.status "1a7" "1s5" .transportError)).log
          "Unable to request the service status from the Rancher API",
       .err "Upgrade error: current service state [], but it needs to be 'active'") ∧
    WaitForServiceState (sampleWorld "upgrading" (fun _ => .transportError)) sampleStart
        (some (sampleService "upgrading")) 2 "" =
      ((sampleStart.emit (.status "1a7" "1s5" .transportError)).log
          "Unable to request the service status from the Rancher API",
       .ok ()) := by
  constructor
  · simp only [WaitForServiceState]
    rw [waitLoop_poll _ _ _ _ _ _ _ (by decide)]
    simp only [sampleWorld, sampleService, StatusReply.observed, polledState]
    rw [if_neg (by decide), waitLoop_done _ _ _ _ _ _ _ (by decide)]
    rfl
  · simp only [WaitForServiceState]
    rw [waitLoop_poll _ _ _ _ _ _ _ (by decide)]
    simp only [sampleWorld, sampleService, StatusReply.observed, polledState]
    rw [if_pos trivial]

theorem waitLoop_spec (w : World) (service : Service) (timeout : Int) (targetState : String) :
    ∀ (n : Nat) (attempts : Int) (state : String) (st : Sys),
      (timeout - attempts).toNat ≤ n →
      ∃ polls,
        (waitLoop w service timeout targetState attempts state st).1.trace = st.trace ++ polls ∧
        (waitLoop w service timeout targetState attempts state st).1.heap = st.heap ∧
        (∀ e ∈ polls, e.isStatus = true) ∧
        (((waitLoop w service timeout targetState attempts state st).2 = .ok () ∧
            ∃ init reply, polls = init ++ [.status service.EnvID service.ID reply] ∧
              polledState reply = targetState) ∨
          ∃ s, (waitLoop w service timeout targetState attempts state st).2 =
            .err (waitError s targetState)) := by
  intro n
  induction n with
  | zero =>
    intro attempts state st hn
    have hlt : ¬ attempts < timeout := by omega
    rw [waitLoop_done _ _ _ _ _ _ _ hlt]
    exact ⟨[], by simp, rfl, by simp, Or.inr ⟨state, rfl⟩⟩
  | succ n ih =>
    intro attempts state st hn
    by_cases hlt : attempts < timeout
    · rw [waitLoop_poll _ _ _ _ _ _ _ hlt]
      simp only
      generalize hreply : w.service st.trace.length service.EnvID service.ID = reply
      generalize hst1 : (match reply.observed with
        | .ok _ => st.emit (.status service.EnvID service.ID reply)
        | .err e => (st.emit (.status service.EnvID service.ID reply)).log e
        | .panic e => (st.emit (.status service.EnvID service.ID reply)).log e) = st1
      have htr : st1.trace = st.trace ++ [.status service.EnvID service.ID reply] ∧
          st1.heap = st.heap := by
        rw [← hst1]
        cases reply.observed <;> simp [Sys.emit, Sys.log]
      by_cases hp : polledState reply = targetState
      · rw [if_pos hp]
        refine ⟨[.status service.EnvID service.ID reply], htr.1, htr.2, ?_, Or.inl ⟨rfl, [], reply,
          rfl, hp⟩⟩
        intro e he
        simp at he
        subst he
        rfl
      · rw [if_neg hp]
        have hm : (timeout - (attempts + WaitInterval)).toNat ≤ n := by
          simp only [WaitInterval]
          omega
        obtain ⟨polls, h1, h2, h3, h4⟩ := ih (attempts + WaitInterval) (polledState reply) st1 hm
        refine ⟨.status service.EnvID service.ID reply :: polls, ?_, ?_, ?_, ?_⟩
        · rw [h1, htr.1]
          simp
        · rw [h2, htr.2]
        · intro e he
          rcases List.mem_cons.1 he with rfl | he2
          · rfl
          · exact h3 e he2
        · rcases h4 with ⟨hok, init, last, hpolls, hlast⟩ | ⟨s, herr⟩
          · exact Or.inl ⟨hok, .status service.EnvID service.ID reply :: init, last,
              by rw [hpolls]; rfl, hlast⟩
          · exact Or.inr ⟨s, herr⟩
    · rw [waitLoop_done _ _ _ _ _ _ _ hlt]
      exact ⟨[], by simp, rfl, by simp, Or.inr ⟨state, rfl⟩⟩

/-- What a wait does: it only polls, it returns success only on a poll that
yields the target state, and otherwise it returns its time-out error. -/
theorem WaitForServiceState_spec (w : World) (st : Sys) (service : Service) (timeout : Int)
    (targetState : String) :
    ∃ polls,
      (WaitForServiceState w st (some service) timeout targetState).1.trace =
        st.trace ++ polls ∧
      (WaitForServiceState w st (some service) timeout targetState).1.heap = st.heap ∧
      (∀ e ∈ polls, e.isStatus = true) ∧
      (((WaitForServiceState w st (some service) timeout targetState).2 = .ok () ∧
          ∃ init reply, polls = init ++ [.status service.EnvID service.ID reply] ∧
            polledState reply = targetState) ∨
        ∃ s, (WaitForServiceState w st (some service) timeout targetState).2 =
          .err (waitError s targetState)) := by
  simp only [WaitForServiceState]
  exact waitLoop_spec w service timeout targetState (timeout - 0).toNat 0 service.State st
    (le_refl _)

theorem polledState_eq_nonempty {reply : StatusReply} {s : String} (hs : s ≠ "")
    (h : polledState reply = s) : reply.observed = .ok s := by
  unfold polledState at h
  cases hobs : reply.observed with
  | ok t =>
    rw [hobs] at h
    simp only at h
    rw [h]
  | err e =>
    rw [hobs] at h
    exact absurd h.symm hs
  | panic e =>
    rw [hobs] at h
    exact absurd h.symm hs

/-! ## Facts about the phases of a run -/

theorem actionsOf_emit_list (st : Sys) (uri : String) :
    actionsOf (st.emit (.list uri)).trace = actionsOf st.trace := by
  simp [Sys.emit, actionsOf_append, actionsOf]

theorem GetEnv_actions (w : World) (st : Sys) (envName : String) :
    actionsOf (GetEnv w st envName).1.trace = actionsOf st.trace := by
  unfold GetEnv
  simp only [fetchItems]
  split
  · rfl
  · cases w.items st.trace.length "projects?limit=1000" with
    | err e => exact actionsOf_emit_list st _
    | panic e => exact actionsOf_emit_list st _
    | ok items =>
      simp only
      cases firstNamed (TrimSpace envName) items <;> exact actionsOf_emit_list st _

theorem GetStack_actions (w : World) (st : Sys) (envID stackName : String) :
    actionsOf (GetStack w st envID stackName).1.trace = actionsOf st.trace := by
  unfold GetStack
  simp only [fetchItems]
  split
  · rfl
  · split
    · rfl
    · cases w.items st.trace.length
          ("projects/" ++ TrimSpace envID ++ "/environments?limit=1000") with
      | err e => exact actionsOf_emit_list st _
      | panic e => exact actionsOf_emit_list st _
      | ok items =>
        simp only
        cases firstNamed (TrimSpace stackName) items <;> exact actionsOf_emit_list st _

theorem GetService_actions (w : World) (st : Sys) (envID stackID serviceName : String) :
    actionsOf (GetService w st envID stackID serviceName).1.trace = actionsOf st.trace := by
  unfold GetService
  simp only [fetchItems]
  split
  · rfl
  · split
    · rfl
    · split
      · rfl
      · cases w.items st.trace.length
            ("projects/" ++ TrimSpace envID ++ "/environments/" ++ TrimSpace stackID ++
              "/services?limit=1000") with
        | err e => exact actionsOf_emit_list st _
        | panic e => exact actionsOf_emit_list st _
        | ok items =>
          simp only
          cases firstNamed (TrimSpace serviceName) items <;> exact actionsOf_emit_list st _

/-- Finding the service posts no action. -/
theorem resolve_actions (w : World) (opts : Options) (st : Sys) :
    actionsOf (resolve w opts st).1.trace = actionsOf st.trace := by
  unfold resolve
  cases NewClient w opts.debug opts.url opts.key opts.secret with
  | err e => rfl
  | panic e => rfl
  | ok api =>
    simp only
    have h1 := GetEnv_actions w st opts.env
    rcases hE : GetEnv w st opts.env with ⟨st1, r1⟩
    rw [hE] at h1
    cases r1 with
    | err e => exact h1
    | panic e => exact h1
    | ok env =>
      simp only
      have h2 := GetStack_actions w st1 env.ID opts.stack
      rcases hS : GetStack w st1 env.ID opts.stack with ⟨st2, r2⟩
      rw [hS] at h2
      cases r2 with
      | err e => exact h2.trans h1
      | panic e => exact h2.trans h1
      | ok stack =>
        simp only
        have h3 := GetService_actions w st2 env.ID stack.ID opts.service
        rcases hV : GetService w st2 env.ID stack.ID opts.service with ⟨st3, r3⟩
        rw [hV] at h3
        cases r3 with
        | err e => exact (h3.trans h2).trans h1
        | panic e => exact (h3.trans h2).trans h1
        | ok service => exact (h3.trans h2).trans h1

theorem FinishUpgrade_eq (w : World) (st : Sys) (s : Service) :
    FinishUpgrade w st (some s) =
      (st.emit (.action .finishupgrade s.EnvID s.ID (w.post st.trace.length .finishupgrade
          s.EnvID s.ID)),
       match w.post st.trace.length .finishupgrade s.EnvID s.ID with
       | .sent => .ok ()
       | .failed _ => .err "Unable to finish the previous upgrade in Rancher API") := by
  simp only [FinishUpgrade]
  cases w.post st.trace.length .finishupgrade s.EnvID s.ID <;> rfl

theorem RollbackUpgrade_eq (w : World) (st : Sys) (s : Service) :
    RollbackUpgrade w st (some s) =
      (st.emit (.action .rollback s.EnvID s.ID (w.post st.trace.length .rollback s.EnvID s.ID)),
       match w.post st.trace.length .rollback s.EnvID s.ID with
       | .sent => .ok ()
       | .failed _ => .err "Unable to finish rollback in Rancher API") := by
  simp only [RollbackUpgrade]
  cases w.post st.trace.length .rollback s.EnvID s.ID <;> rfl

/-- What submitting does to the trace: nothing when the request cannot be
built, one upgrade action otherwise; it succeeds only when the POST is sent. -/
theorem submit_spec (w : World) (opts : Options) (api : Client) (service : Service) (st : Sys) :
    ((submit w opts api service st).1.trace = st.trace ∧
        (submit w opts api service st).2 ≠ .ok () ∧
        ∀ h req, NewUpgradeRequest st.heap (some service) opts.batchSize opts.batchInterval
          opts.startFirst opts.image opts.upgradeSidekicks (some opts.newSidekickImage) ≠
            (h, .ok req)) ∨
      ∃ reply,
        (submit w opts api service st).1.trace =
          st.trace ++ [.action .upgrade service.EnvID service.ID reply] ∧
        ((submit w opts api service st).2 = .ok () ↔ reply = .sent) := by
  unfold submit
  rcases hN : NewUpgradeRequest st.heap (some service) opts.batchSize opts.batchInterval
    opts.startFirst opts.image opts.upgradeSidekicks (some opts.newSidekickImage) with ⟨h, r⟩
  cases r with
  | err e =>
    left
    exact ⟨rfl, by simp, by simp⟩
  | panic e =>
    left
    exact ⟨rfl, by simp, by simp⟩
  | ok req =>
    right
    simp only [UpgradeService]
    refine ⟨w.post st.trace.length .upgrade service.EnvID service.ID, ?_, ?_⟩
    · cases w.post st.trace.length .upgrade service.EnvID service.ID with
      | sent => simp [Sys.emit]
      | failed b => 
        simp only
        split <;> simp [Sys.emit]
    · cases w.post st.trace.length .upgrade service.EnvID service.ID with
      | sent => simp
      | failed b =>
        simp only
        split <;> simp

/-- The wait for `upgraded` only polls and never ends the run. -/
theorem converge_spec (w : World) (opts : Options) (service : Service) (st : Sys) :
    ∃ polls,
      (converge w opts service st).1.trace = st.trace ++ polls ∧
      (∀ e ∈ polls, e.isStatus = true) ∧
      (converge w opts service st).2 = .ok () := by
  obtain ⟨polls, htr, -, hst, hres⟩ :=
    WaitForServiceState_spec w st service opts.upgradeTimeout "upgraded"
  unfold converge
  rcases hW : WaitForServiceState w st (some service) opts.upgradeTimeout "upgraded" with
    ⟨st1, r⟩
  rw [hW] at htr hres
  simp only at htr hres
  cases r with
  | ok u => exact ⟨polls, htr, hst, rfl⟩
  | err e => exact ⟨polls, htr, hst, rfl⟩
  | panic e =>
    rcases hres with ⟨h, -⟩ | ⟨s, h⟩ <;> cases h

/-- What follows the wait for `upgraded`: one status fetch, then a roll-back
and nothing else posted when the status is `unhealthy`, and otherwise at most a
finish. -/
theorem settle_spec (w : World) (opts : Options) (service : Service) (st : Sys) :
    ∃ rest,
      (settle w opts service st).final.trace =
        st.trace ++ .status service.EnvID service.ID
          (w.service st.trace.length service.EnvID service.ID) :: rest ∧
      (((w.service st.trace.length service.EnvID service.ID).observed = .ok "unhealthy" ∧
          actionsOf rest = [.rollback]) ∨
        ((w.service st.trace.length service.EnvID service.ID).observed ≠ .ok "unhealthy" ∧
          (actionsOf rest = [] ∨ actionsOf rest = [.finishupgrade]))) := by
  unfold settle
  simp only [GetServiceStatus]
  generalize w.service st.trace.length service.EnvID service.ID = reply
  cases hobs : reply.observed with
  | err e => exact ⟨[], by simp [Sys.emit], Or.inr ⟨by simp, Or.inl rfl⟩⟩
  | panic e => exact ⟨[], by simp [Sys.emit], Or.inr ⟨by simp, Or.inl rfl⟩⟩
  | ok state =>
    simp only
    by_cases hun : state = "unhealthy"
    · rw [if_pos hun, RollbackUpgrade_eq]
      subst hun
      generalize hst1 : (st.emit (.status service.EnvID service.ID reply)) = st1
      have htr1 : st1.trace = st.trace ++ [.status service.EnvID service.ID reply] := by
        rw [← hst1]
        rfl
      cases w.post st1.trace.length .rollback service.EnvID service.ID with
      | failed b =>
        refine ⟨[.action .rollback service.EnvID service.ID (.failed b)], ?_, Or.inl ⟨rfl, rfl⟩⟩
        simp [Sys.emit, htr1]
      | sent =>
        simp only
        obtain ⟨polls, htr, -, hstat, hres⟩ := WaitForServiceState_spec w
          (st1.emit (.action .rollback service.EnvID service.ID .sent)) service
          opts.upgradeTimeout "active"
        rcases hW : WaitForServiceState w
          (st1.emit (.action .rollback service.EnvID service.ID .sent)) (some service)
          opts.upgradeTimeout "active" with ⟨st3, r⟩
        rw [hW] at htr
        simp only at htr
        refine ⟨.action .rollback service.EnvID service.ID .sent :: polls, ?_,
          Or.inl ⟨by simp, by simp [actionsOf, actionsOf_of_status hstat]⟩⟩
        cases r <;> simp [Sys.log, htr, Sys.emit, htr1]
    · rw [if_neg hun]
      have hne : Result.ok state ≠ Result.ok "unhealthy" := by
        intro h
        exact hun (by simpa using h)
      by_cases hfin : opts.finishUpgrade = true
      · rw [if_pos hfin, FinishUpgrade_eq]
        generalize hst1 : (st.emit (.status service.EnvID service.ID reply)) = st1
        have htr1 : st1.trace = st.trace ++ [.status service.EnvID service.ID reply] := by
          rw [← hst1]
          rfl
        cases w.post st1.trace.length .finishupgrade service.EnvID service.ID with
        | failed b =>
          refine ⟨[.action .finishupgrade service.EnvID service.ID (.failed b)], ?_,
            Or.inr ⟨hne, Or.inr rfl⟩⟩
          simp [Sys.emit, htr1]
        | sent =>
          simp only
          obtain ⟨polls, htr, -, hstat, hres⟩ := WaitForServiceState_spec w
            (st1.emit (.action .finishupgrade service.EnvID service.ID .sent)) service
            opts.upgradeTimeout "active"
          rcases hW : WaitForServiceState w
            (st1.emit (.action .finishupgrade service.EnvID service.ID .sent)) (some service)
            opts.upgradeTimeout "active" with ⟨st3, r⟩
          rw [hW] at htr
          simp only at htr
          refine ⟨.action .finishupgrade service.EnvID service.ID .sent :: polls, ?_,
            Or.inr ⟨by simpa using hun, Or.inr (by simp [actionsOf, actionsOf_of_status hstat])⟩⟩
          cases r <;> simp [Sys.log, htr, Sys.emit, htr1]
      · rw [if_neg hfin]
        exact ⟨[], by simp [Sys.emit, Sys.log], Or.inr ⟨hne, Or.inl rfl⟩⟩

/-- What the conclusion of a run adds to the trace: polls and at most one
roll-back or one finish, and exactly a roll-back when waiting is enabled and
the status fetched after the wait is `unhealthy`. -/
theorem conclude_spec (w : World) (opts : Options) (service : Service) (st : Sys) :
    ∃ tail,
      (conclude w opts service st).final.trace = st.trace ++ tail ∧
      (actionsOf tail = [] ∨ actionsOf tail = [.rollback] ∨ actionsOf tail = [.finishupgrade]) ∧
      (opts.waiteUpgradeFinish = true →
        (GetServiceStatus w (converge w opts service st).1 (some service)).2 = .ok "unhealthy" →
        actionsOf tail = [.rollback]) := by
  unfold conclude
  by_cases hwait : opts.waiteUpgradeFinish = true
  · rw [if_pos hwait]
    obtain ⟨polls, htr, hstat, hok⟩ := converge_spec w opts service st
    rcases hC : converge w opts service st with ⟨st1, r⟩
    rw [hC] at htr hok
    simp only at htr hok
    subst hok
    simp only
    obtain ⟨rest, hrest, hact⟩ := settle_spec w opts service st1
    refine ⟨polls ++ .status service.EnvID service.ID
      (w.service st1.trace.length service.EnvID service.ID) :: rest, ?_, ?_, ?_⟩
    · rw [hrest, htr]
      simp
    · rw [actionsOf_append, actionsOf_of_status hstat]
      simp only [actionsOf, List.nil_append]
      rcases hact with ⟨-, h⟩ | ⟨-, h | h⟩
      · exact Or.inr (Or.inl h)
      · exact Or.inl h
      · exact Or.inr (Or.inr h)
    · intro _ hun
      simp only [GetServiceStatus] at hun
      rw [actionsOf_append, actionsOf_of_status hstat]
      simp only [actionsOf, List.nil_append]
      rcases hact with ⟨-, h⟩ | ⟨hne, -⟩
      · exact h
      · exact absurd hun hne
  · rw [if_neg hwait]
    exact ⟨[], by simp [Sys.log], Or.inl rfl, fun h => absurd h hwait⟩

/-- What the pre-check adds to the trace.  When the service is not in state
`upgraded`, nothing.  Otherwise a finish action, and when it is sent a wait:
the pre-check succeeds only on a poll that observes `active`. -/
theorem preCheck_spec (w : World) (opts : Options) (service : Service) (st : Sys) :
    (service.State ≠ "upgraded" → preCheck w opts service st = (st, .ok ())) ∧
    (service.State = "upgraded" →
      ∃ polls,
        (preCheck w opts service st).1.trace =
          st.trace ++ .action .finishupgrade service.EnvID service.ID
            (w.post st.trace.length .finishupgrade service.EnvID service.ID) :: polls ∧
        (∀ e ∈ polls, e.isStatus = true) ∧
        ((preCheck w opts service st).2 = .ok () →
          w.post st.trace.length .finishupgrade service.EnvID service.ID = .sent ∧
          (WaitForServiceState w (FinishUpgrade w st (some service)).1 (some service)
            opts.upgradeTimeout "active").2 = .ok () ∧
          ∃ init last, polls = init ++ [.status service.EnvID service.ID last] ∧
            last.observed = .ok "active")) := by
  constructor
  · intro hs
    unfold preCheck
    rw [if_neg hs]
  · intro hs
    unfold preCheck
    rw [if_pos hs, FinishUpgrade_eq]
    cases hpost : w.post st.trace.length .finishupgrade service.EnvID service.ID with
    | failed b =>
      exact ⟨[], by simp [Sys.emit], by simp, by simp⟩
    | sent =>
      simp only
      obtain ⟨polls, htr, -, hstat, hres⟩ := WaitForServiceState_spec w
        (st.emit (.action .finishupgrade service.EnvID service.ID .sent)) service
        opts.upgradeTimeout "active"
      refine ⟨polls, ?_, hstat, ?_⟩
      · rw [htr]
        simp [Sys.emit]
      · intro hok
        refine ⟨trivial, hok, ?_⟩
        rcases hres with ⟨-, init, last, hp, hl⟩ | ⟨s, herr⟩
        · exact ⟨init, last, hp, polledState_eq_nonempty (by decide) hl⟩
        · rw [herr] at hok
          cases hok

/-- What submitting and concluding add to the trace: nothing when the request
cannot be built, and otherwise one upgrade action followed by no other
upgrade. -/
theorem proceed_spec (w : World) (opts : Options) (api : Client) (service : Service)
    (st : Sys) :
    ((proceed w opts api service st).final.trace = st.trace ∧
        ∀ h req, NewUpgradeRequest st.heap (some service) opts.batchSize opts.batchInterval
          opts.startFirst opts.image opts.upgradeSidekicks (some opts.newSidekickImage) ≠
            (h, .ok req)) ∨
      ∃ reply tail,
        (proceed w opts api service st).final.trace =
          st.trace ++ .action .upgrade service.EnvID service.ID reply :: tail ∧
        Action.upgrade ∉ actionsOf tail := by
  unfold proceed
  rcases submit_spec w opts api service st with ⟨htr, hne, hbuild⟩ | ⟨reply, htr, hok⟩
  · left
    rcases hS : submit w opts api service st with ⟨st1, r⟩
    rw [hS] at htr hne
    simp only at htr hne
    cases r with
    | err e => exact ⟨htr, hbuild⟩
    | panic e => exact ⟨htr, hbuild⟩
    | ok u => exact absurd rfl hne
  · right
    rcases hS : submit w opts api service st with ⟨st1, r⟩
    rw [hS] at htr
    simp only at htr
    cases r with
    | err e => exact ⟨reply, [], by simpa using htr, by simp [actionsOf]⟩
    | panic e => exact ⟨reply, [], by simpa using htr, by simp [actionsOf]⟩
    | ok u =>
      simp only
      obtain ⟨tail, htail, hact, -⟩ := conclude_spec w opts service st1
      refine ⟨reply, tail, ?_, ?_⟩
      · rw [htail, htr]
        simp
      · rcases hact with h | h | h <;> simp [h]

theorem runFromClient_of_resolve {w : World} {opts : Options} {heap : Heap} {st0 : Sys}
    {api : Client} {service : Service}
    (hres : resolve w opts { trace := [], logs := [], heap := heap } = (st0, .ok (api, service))) :
    runFromClient w opts heap = orchestrate w opts api service st0 ∧
      actionsOf st0.trace = [] := by
  constructor
  · unfold runFromClient
    rw [hres]
  · have h := resolve_actions w opts { trace := [], logs := [], heap := heap }
    rw [hres] at h
    simpa [actionsOf] using h

/-! ## The option checks of `main` -/

theorem hasInfix_nil (l : List Char) : hasInfix [] l = true := by
  cases l <;> simp [hasInfix]

/-- Every string contains the empty string. -/
theorem Contains_empty (s : String) : Contains s "" = true := by
  unfold Contains
  exact hasInfix_nil _

/-- With the empty variable name, as on line 110, the check prints the usage
and exits whatever the option holds. -/
theorem ensureOptionValue_empty_name (environ : String → String) (opt : String) :
    ensureOptionValue environ opt "" = none := by
  have ht : TrimSpace "" = "" := by decide
  simp [ensureOptionValue, Contains_empty, Getenv, ht]

/-- An option that is not blank and does not contain the name of its variable
is kept. -/
theorem ensureOptionValue_keep (environ : String → String) (opt envVar : String)
    (h : (decide (TrimSpace opt = "") || Contains opt envVar) = false) :
    ensureOptionValue environ opt envVar = some opt := by
  unfold ensureOptionValue
  rw [h]
  rfl

/-! ## Sample passes through lines 114-225 -/

theorem sample_resolve (start : String) (status : Nat → StatusReply) (finish : Bool) :
    resolve (sampleWorld start status) (sampleOptions finish)
        { trace := [], logs := [], heap := sampleHeap } =
      (sampleFound, .ok (sampleClient, sampleService start)) := by
  have t1 : TrimSpace "http://rancher:8080" = "http://rancher:8080" := by decide
  have t2 : TrimSpace "key" = "key" := by decide
  have t3 : TrimSpace "secret" = "secret" := by decide
  have t4 : TrimSpace "Default" = "Default" := by decide
  have t5 : TrimSpace "web" = "web" := by decide
  have t6 : TrimSpace "api" = "api" := by decide
  have t7 : TrimSpace "1a7" = "1a7" := by decide
  have t8 : TrimSpace "1st3" = "1st3" := by decide
  simp [resolve, sampleWorld, sampleOptions, NewClient, GetEnv, GetStack,
    GetService, fetchItems, firstNamed, sampleItem, sampleService, Sys.emit, sampleFound,
    sampleClient, t1, t2, t3, t4, t5, t6, t7, t8]

/-- Lines 114-225 on a platform where the service is found in state
`upgraded`: the stale upgrade is finished, the upgrade is posted, the wait for
`upgraded` succeeds, the service is seen unhealthy and rolled back. -/
theorem sample_pass_stale_then_unhealthy :
    (runFromClient (sampleWorld "upgraded" statusUnhealthyAfterUpgrade) (sampleOptions true)
        sampleHeap).final.trace =
      [.list "projects?limit=1000",
       .list ("projects/" ++ "1a7" ++ "/environments?limit=1000"),
       .list ("projects/" ++ "1a7" ++ "/environments/" ++ "1st3" ++ "/services?limit=1000"),
       .action .finishupgrade "1a7" "1s5" .sent,
       .status "1a7" "1s5" (.service "active" "healthy"),
       .action .upgrade "1a7" "1s5" .sent,
       .status "1a7" "1s5" (.service "upgraded" "healthy"),
       .status "1a7" "1s5" (.service "upgraded" "unhealthy"),
       .action .rollback "1a7" "1s5" .sent,
       .status "1a7" "1s5" (.service "active" "healthy")] ∧
    (runFromClient (sampleWorld "upgraded" statusUnhealthyAfterUpgrade) (sampleOptions true)
        sampleHeap).final.logs = ["Upgrade rollback :("] ∧
    (runFromClient (sampleWorld "upgraded" statusUnhealthyAfterUpgrade) (sampleOptions true)
        sampleHeap).outcome = .reported "Upgrade rollback :(" := by
  have t9 : TrimSpace "api:1.2.3" = "api:1.2.3" := by decide
  unfold runFromClient
  rw [sample_resolve]
  simp [orchestrate, preCheck, proceed, submit, conclude, converge, settle, sampleService,
    FinishUpgrade, RollbackUpgrade, UpgradeService, GetServiceStatus, WaitForServiceState,
    NewUpgradeRequest, t9, sampleWorld, sampleOptions, Sys.emit, Sys.log, sampleFound,
    statusUnhealthyAfterUpgrade, StatusReply.observed, polledState, WaitInterval,
    waitLoop_poll, waitLoop_done]

/-- Lines 114-225 on a platform whose service is still `upgrading` when the
wait for `upgraded` gives up: the error is logged, the status is fetched, the
upgrade is finished and success is reported. -/
theorem sample_pass_slow_upgrade :
    (runFromClient (sampleWorld "active" statusSlowUpgrade) (sampleOptions true)
        sampleHeap).final.trace =
      [.list "projects?limit=1000",
       .list ("projects/" ++ "1a7" ++ "/environments?limit=1000"),
       .list ("projects/" ++ "1a7" ++ "/environments/" ++ "1st3" ++ "/services?limit=1000"),
       .action .upgrade "1a7" "1s5" .sent,
       .status "1a7" "1s5" (.service "upgrading" "healthy"),
       .status "1a7" "1s5" (.service "upgrading" "healthy"),
       .action .finishupgrade "1a7" "1s5" .sent,
       .status "1a7" "1s5" (.service "active" "healthy")] ∧
    (runFromClient (sampleWorld "active" statusSlowUpgrade) (sampleOptions true)
        sampleHeap).final.logs =
      [waitError "upgrading" "upgraded", "Upgrade succeed :)"] ∧
    (runFromClient (sampleWorld "active" statusSlowUpgrade) (sampleOptions true)
        sampleHeap).outcome = .reported "Upgrade succeed :)" := by
  have t9 : TrimSpace "api:1.2.3" = "api:1.2.3" := by decide
  unfold runFromClient
  rw [sample_resolve]
  simp [orchestrate, preCheck, proceed, submit, conclude, converge, settle, sampleService,
    FinishUpgrade, RollbackUpgrade, UpgradeService, GetServiceStatus, WaitForServiceState,
    NewUpgradeRequest, t9, sampleWorld, sampleOptions, Sys.emit, Sys.log, sampleFound,
    statusSlowUpgrade, StatusReply.observed, polledState, WaitInterval,
    waitLoop_poll, waitLoop_done]

/-! ## The order of the actions in lines 114-225 -/

/-- Lines 114-225, once the service is resolved.  When it is found in state
`upgraded`, the first action posted is the finish; an upgrade action, if one
is posted, comes after it and directly after a poll that observed `active`,
and none is posted when the finish fails or the wait for `active` does not
succeed.  When it is found in another state the first action posted, if any,
is the upgrade, and one is posted whenever the request can be built. -/
theorem runFromClient_precheck_ordering (w : World) (opts : Options) (heap : Heap) (st0 : Sys)
    (api : Client) (service : Service)
    (hres : resolve w opts { trace := [], logs := [], heap := heap } =
      (st0, .ok (api, service))) :
    actionsOf st0.trace = [] ∧
    (service.State = "upgraded" →
      ∃ rest,
        (runFromClient w opts heap).final.trace =
          st0.trace ++ .action .finishupgrade service.EnvID service.ID
            (w.post st0.trace.length .finishupgrade service.EnvID service.ID) :: rest ∧
        (Action.upgrade ∉ actionsOf rest ∨
          ∃ polls last reply tail,
            rest = polls ++ .status service.EnvID service.ID last ::
              .action .upgrade service.EnvID service.ID reply :: tail ∧
            (∀ e ∈ polls, e.isStatus = true) ∧ last.observed = .ok "active" ∧
            Action.upgrade ∉ actionsOf tail) ∧
        (w.post st0.trace.length .finishupgrade service.EnvID service.ID ≠ .sent →
          Action.upgrade ∉ actionsOf rest) ∧
        ((WaitForServiceState w (FinishUpgrade w st0 (some service)).1 (some service)
            opts.upgradeTimeout "active").2 ≠ .ok () →
          Action.upgrade ∉ actionsOf rest)) ∧
    (service.State ≠ "upgraded" →
      (actionsOf (runFromClient w opts heap).final.trace = [] ∨
        (actionsOf (runFromClient w opts heap).final.trace).head? = some .upgrade) ∧
      (∀ h req, NewUpgradeRequest st0.heap (some service) opts.batchSize opts.batchInterval
          opts.startFirst opts.image opts.upgradeSidekicks (some opts.newSidekickImage) =
            (h, .ok req) →
        (actionsOf (runFromClient w opts heap).final.trace).head? = some .upgrade)) := by
  obtain ⟨hmain, hnone⟩ := runFromClient_of_resolve hres
  refine ⟨hnone, ?_, ?_⟩
  · intro hs
    obtain ⟨polls, htr, hstat, hok⟩ := (preCheck_spec w opts service st0).2 hs
    have hpolls : actionsOf polls = [] := actionsOf_of_status hstat
    rw [hmain]
    unfold orchestrate
    rcases hP : preCheck w opts service st0 with ⟨st1, r⟩
    rw [hP] at htr hok
    simp only at htr hok
    cases r with
    | err e =>
      exact ⟨polls, htr, Or.inl (by simp [hpolls]), fun _ => by simp [hpolls],
        fun _ => by simp [hpolls]⟩
    | panic e =>
      exact ⟨polls, htr, Or.inl (by simp [hpolls]), fun _ => by simp [hpolls],
        fun _ => by simp [hpolls]⟩
    | ok u =>
      obtain ⟨hsent, hwok, init, last, hinit, hlast⟩ := hok rfl
      simp only
      rcases proceed_spec w opts api service st1 with ⟨hsame, -⟩ | ⟨reply, tail, hup, hno⟩
      · refine ⟨polls, by rw [hsame, htr], Or.inl (by simp [hpolls]), fun _ => by simp [hpolls],
          fun _ => by simp [hpolls]⟩
      · refine ⟨polls ++ .action .upgrade service.EnvID service.ID reply :: tail, ?_, ?_, ?_, ?_⟩
        · rw [hup, htr]
          simp
        · right
          refine ⟨init, last, reply, tail, ?_, ?_, hlast, hno⟩
          · rw [hinit]
            simp
          · intro e he
            exact hstat e (by rw [hinit]; exact List.mem_append_left _ he)
        · intro hns
          exact absurd hsent hns
        · intro hnw
          exact absurd hwok hnw
  · intro hs
    have hP := (preCheck_spec w opts service st0).1 hs
    rw [hmain]
    unfold orchestrate
    rw [hP]
    simp only
    rcases proceed_spec w opts api service st0 with ⟨hsame, hbuild⟩ | ⟨reply, tail, hup, -⟩
    · refine ⟨Or.inl (by rw [hsame, hnone]), ?_⟩
      intro h req hreq
      exact absurd hreq (hbuild h req)
    · have hhead : (actionsOf (proceed w opts api service st0).final.trace).head? =
          some .upgrade := by
        rw [hup, actionsOf_append, hnone]
        rfl
      exact ⟨Or.inr hhead, fun _ _ _ => hhead⟩

/-- The three waits for `active` of lines 114-225 end the run when they time
out: the run stops in the state the wait ended in, with that error as its
fatal outcome. -/
theorem runFromClient_fatal_waits (w : World) (opts : Options) (heap : Heap) (st0 : Sys)
    (api : Client) (service : Service)
    (hres : resolve w opts { trace := [], logs := [], heap := heap } =
      (st0, .ok (api, service))) :
    (∀ st1 st2 e, service.State = "upgraded" →
      FinishUpgrade w st0 (some service) = (st1, .ok ()) →
      WaitForServiceState w st1 (some service) opts.upgradeTimeout "active" = (st2, .err e) →
      runFromClient w opts heap = { final := st2, outcome := .fatal e }) ∧
    (∀ st1 st2, preCheck w opts service st0 = (st1, .ok ()) →
      submit w opts api service st1 = (st2, .ok ()) →
      opts.waiteUpgradeFinish = true →
      (∀ st3 e,
        WaitForServiceState w st2 (some service) opts.upgradeTimeout "upgraded" =
          (st3, .err e) →
        runFromClient w opts heap = settle w opts service (st3.log e) ∧
        ∃ rest, (runFromClient w opts heap).final.trace =
          st3.trace ++ .status service.EnvID service.ID
            (w.service st3.trace.length service.EnvID service.ID) :: rest) ∧
      (∀ st3 st4 st5 st6 e, converge w opts service st2 = (st3, .ok ()) →
        GetServiceStatus w st3 (some service) = (st4, .ok "unhealthy") →
        RollbackUpgrade w st4 (some service) = (st5, .ok ()) →
        WaitForServiceState w st5 (some service) opts.upgradeTimeout "active" = (st6, .err e) →
        runFromClient w opts heap = { final := st6, outcome := .fatal e }) ∧
      (∀ state st3 st4 st5 st6 e, converge w opts service st2 = (st3, .ok ()) →
        GetServiceStatus w st3 (some service) = (st4, .ok state) →
        state ≠ "unhealthy" →
        opts.finishUpgrade = true →
        FinishUpgrade w st4 (some service) = (st5, .ok ()) →
        WaitForServiceState w st5 (some service) opts.upgradeTimeout "active" = (st6, .err e) →
        runFromClient w opts heap = { final := st6, outcome := .fatal e })) := by
  obtain ⟨hmain, -⟩ := runFromClient_of_resolve hres
  refine ⟨?_, ?_⟩
  · intro st1 st2 e hs hfin hw
    rw [hmain]
    unfold orchestrate preCheck
    rw [if_pos hs, hfin]
    simp only
    rw [hw]
  · intro st1 st2 hpre hsub hwait
    have hconc : runFromClient w opts heap = conclude w opts service st2 := by
      rw [hmain]
      unfold orchestrate
      rw [hpre]
      simp only
      unfold proceed
      rw [hsub]
    refine ⟨?_, ?_, ?_⟩
    · intro st3 e hw
      have hset : runFromClient w opts heap = settle w opts service (st3.log e) := by
        rw [hconc]
        unfold conclude
        rw [if_pos hwait]
        unfold converge
        rw [hw]
      refine ⟨hset, ?_⟩
      obtain ⟨rest, hrest, -⟩ := settle_spec w opts service (st3.log e)
      exact ⟨rest, by rw [hset, hrest]; rfl⟩
    · intro st3 st4 st5 st6 e hc hst hroll hw
      rw [hconc]
      unfold conclude
      rw [if_pos hwait, hc]
      simp only
      unfold settle
      rw [hst]
      simp only [if_true]
      rw [hroll]
      simp only
      rw [hw]
    · intro state st3 st4 st5 st6 e hc hst hne hfinish hfin hw
      rw [hconc]
      unfold conclude
      rw [if_pos hwait, hc]
      simp only
      unfold settle
      rw [hst]
      simp only
      rw [if_neg hne, if_pos hfinish, hfin]
      simp only
      rw [hw]

/-! ## C7: `main` stops at the check of the environment name -/

/-- C7 fails on `main` through the check of line 110: whatever the process
environment, the platform and the options are, `main` makes no request and
ends by printing the version or a message with the usage; with every option
given on the command line and the service `api` in any state, it ends at the
message of the environment name, so neither a finish nor an upgrade is
posted. -/
theorem main_stops_at_environment_check :
    (∀ (environ : String → String) (w : World) (opts : Options) (heap : Heap),
      (main environ w opts heap).final.trace = [] ∧
      actionsOf (main environ w opts heap).final.trace = [] ∧
      ((main environ w opts heap).outcome = .version ∨
        ∃ msg, (main environ w opts heap).outcome = .usage msg)) ∧
    (∀ (environ : String → String) (start : String) (status : Nat → StatusReply)
        (finish : Bool),
      (main environ (sampleWorld start status) (sampleOptions finish) sampleHeap).final.trace =
        [] ∧
      (main environ (sampleWorld start status) (sampleOptions finish) sampleHeap).outcome =
        .usage "Required Rancher environment name") := by
  constructor
  · intro environ w opts heap
    unfold main
    rw [ensureOptionValue_empty_name]
    split
    · exact ⟨rfl, rfl, Or.inl rfl⟩
    · cases ensureOptionValue environ opts.url "RANCHER_URL" with
      | none => exact ⟨rfl, rfl, Or.inr ⟨_, rfl⟩⟩
      | some url =>
        cases ensureOptionValue environ opts.key "RANCHER_ACCESS_KEY" with
        | none => exact ⟨rfl, rfl, Or.inr ⟨_, rfl⟩⟩
        | some key =>
          cases ensureOptionValue environ opts.secret "RANCHER_SECRET_KEY" with
          | none => exact ⟨rfl, rfl, Or.inr ⟨_, rfl⟩⟩
          | some secret => exact ⟨rfl, rfl, Or.inr ⟨_, rfl⟩⟩
  · intro environ start status finish
    have h1 : ensureOptionValue environ "http://rancher:8080" "RANCHER_URL" =
        some "http://rancher:8080" := ensureOptionValue_keep _ _ _ (by decide)
    have h2 : ensureOptionValue environ "key" "RANCHER_ACCESS_KEY" = some "key" :=
      ensureOptionValue_keep _ _ _ (by decide)
    have h3 : ensureOptionValue environ "secret" "RANCHER_SECRET_KEY" = some "secret" :=
      ensureOptionValue_keep _ _ _ (by decide)
    simp [main, sampleOptions, h1, h2, h3, ensureOptionValue_empty_name]

/-! ## C4: an unhealthy service is rolled back -/

/-- C4, as stated, fails on lines 114-225 of `main`: with waiting enabled, on
a platform where the service is found in state `upgraded` and is seen
unhealthy by the status fetch that follows the successful wait for `upgraded`,
a finish action is posted (by the pre-check) before the upgrade and the
roll-back. -/
theorem stale_finish_precedes_rollback :
    (sampleOptions true).waiteUpgradeFinish = true ∧
    (runFromClient (sampleWorld "upgraded" statusUnhealthyAfterUpgrade) (sampleOptions true)
        sampleHeap).final.trace =
      [.list "projects?limit=1000",
       .list ("projects/" ++ "1a7" ++ "/environments?limit=1000"),
       .list ("projects/" ++ "1a7" ++ "/environments/" ++ "1st3" ++ "/services?limit=1000"),
       .action .finishupgrade "1a7" "1s5" .sent,
       .status "1a7" "1s5" (.service "active" "healthy"),
       .action .upgrade "1a7" "1s5" .sent,
       .status "1a7" "1s5" (.service "upgraded" "healthy"),
       .status "1a7" "1s5" (.service "upgraded" "unhealthy"),
       .action .rollback "1a7" "1s5" .sent,
       .status "1a7" "1s5" (.service "active" "healthy")] ∧
    (StatusReply.service "upgraded" "unhealthy").observed = .ok "unhealthy" ∧
    actionsOf (runFromClient (sampleWorld "upgraded" statusUnhealthyAfterUpgrade)
        (sampleOptions true) sampleHeap).final.trace = [.finishupgrade, .upgrade, .rollback] ∧
    Action.finishupgrade ∈ actionsOf (runFromClient
        (sampleWorld "upgraded" statusUnhealthyAfterUpgrade) (sampleOptions true)
        sampleHeap).final.trace ∧
    (runFromClient (sampleWorld "upgraded" statusUnhealthyAfterUpgrade) (sampleOptions true)
        sampleHeap).outcome = .reported "Upgrade rollback :(" := by
  obtain ⟨htrace, -, hout⟩ := sample_pass_stale_then_unhealthy
  rw [htrace]
  exact ⟨rfl, rfl, by simp [StatusReply.observed], by simp [actionsOf], by simp [actionsOf],
    hout⟩

/-- C4, amended, on lines 114-225 of `main`: when the upgrade was submitted,
waiting is enabled, the wait for `upgraded` observed that state and the status
fetched after it is `unhealthy`, exactly one action is posted after the
upgrade and it is the roll-back, whatever the auto-finish flag is; the actions
posted up to the upgrade are the upgrade alone, preceded by the finish of the
pre-check when the service was found in state `upgraded`. -/
theorem unhealthy_pass_rolls_back (w : World) (opts : Options) (heap : Heap)
    (st0 st1 st2 st3 : Sys) (api : Client) (service : Service)
    (hres : resolve w opts { trace := [], logs := [], heap := heap } =
      (st0, .ok (api, service)))
    (hpre : preCheck w opts service st0 = (st1, .ok ()))
    (hsub : submit w opts api service st1 = (st2, .ok ()))
    (hwait : opts.waiteUpgradeFinish = true)
    (hconv : WaitForServiceState w st2 (some service) opts.upgradeTimeout "upgraded" =
      (st3, .ok ()))
    (hun : (GetServiceStatus w st3 (some service)).2 = .ok "unhealthy") :
    ∃ tail,
      (runFromClient w opts heap).final.trace = st2.trace ++ tail ∧
      actionsOf tail = [.rollback] ∧
      actionsOf st2.trace =
        (if service.State = "upgraded" then [.finishupgrade, .upgrade] else [.upgrade]) ∧
      actionsOf (runFromClient w opts heap).final.trace =
        (if service.State = "upgraded" then [.finishupgrade, .upgrade, .rollback]
         else [.upgrade, .rollback]) := by
  have hc : converge w opts service st2 = (st3, .ok ()) := by
    unfold converge
    rw [hconv]
  have hun2 : (GetServiceStatus w (converge w opts service st2).1 (some service)).2 =
      .ok "unhealthy" := by
    rw [hc]
    exact hun
  have key : ∃ tail,
      (runFromClient w opts heap).final.trace = st2.trace ++ tail ∧
      actionsOf tail = [.rollback] ∧
      actionsOf st2.trace =
        (if service.State = "upgraded" then [.finishupgrade, .upgrade] else [.upgrade]) := by
    obtain ⟨hmain, hnone⟩ := runFromClient_of_resolve hres
    obtain ⟨tail, htail, -, hroll⟩ := conclude_spec w opts service st2
    refine ⟨tail, ?_, hroll hwait hun2, ?_⟩
    · rw [hmain]
      unfold orchestrate
      rw [hpre]
      simp only
      unfold proceed
      rw [hsub]
      exact htail
    · have hst1 : actionsOf st1.trace =
          (if service.State = "upgraded" then [.finishupgrade] else []) := by
        by_cases hs : service.State = "upgraded"
        · obtain ⟨polls, htr, hstat, -⟩ := (preCheck_spec w opts service st0).2 hs
          rw [hpre] at htr
          simp only at htr
          rw [if_pos hs, htr, actionsOf_append, hnone]
          simp [actionsOf, actionsOf_of_status hstat]
        · have h := (preCheck_spec w opts service st0).1 hs
          rw [hpre] at h
          have hst : st1 = st0 := by
            simpa using congrArg Prod.fst h
          rw [if_neg hs, hst, hnone]
      rcases submit_spec w opts api service st1 with ⟨-, hne, -⟩ | ⟨reply, htr, -⟩
      · rw [hsub] at hne
        exact absurd rfl hne
      · rw [hsub] at htr
        simp only at htr
        rw [htr, actionsOf_append, hst1]
        by_cases hs : service.State = "upgraded" <;> simp [hs, actionsOf]
  obtain ⟨tail, htr, htail, hst2⟩ := key
  refine ⟨tail, htr, htail, hst2, ?_⟩
  rw [htr, actionsOf_append, htail, hst2]
  by_cases hs : service.State = "upgraded" <;> simp [hs]

/-- The amended C4 at the pass through lines 114-225 that finds the service in
state `upgraded` and sees it unhealthy after the wait for `upgraded`. -/
theorem unhealthy_pass_rolls_back_witness :
    ∃ tail,
      (runFromClient (sampleWorld "upgraded" statusUnhealthyAfterUpgrade) (sampleOptions true)
          sampleHeap).final.trace =
        (submit (sampleWorld "upgraded" statusUnhealthyAfterUpgrade) (sampleOptions true)
          sampleClient (sampleService "upgraded")
          (preCheck (sampleWorld "upgraded" statusUnhealthyAfterUpgrade) (sampleOptions true)
            (sampleService "upgraded") sampleFound).1).1.trace ++ tail ∧
      actionsOf tail = [.rollback] ∧
      actionsOf (submit (sampleWorld "upgraded" statusUnhealthyAfterUpgrade) (sampleOptions true)
          sampleClient (sampleService "upgraded")
          (preCheck (sampleWorld "upgraded" statusUnhealthyAfterUpgrade) (sampleOptions true)
            (sampleService "upgraded") sampleFound).1).1.trace =
        (if (sampleService "upgraded").State = "upgraded" then [.finishupgrade, .upgrade]
         else [.upgrade]) ∧
      actionsOf (runFromClient (sampleWorld "upgraded" statusUnhealthyAfterUpgrade)
          (sampleOptions true) sampleHeap).final.trace =
        (if (sampleService "upgraded").State = "upgraded" then
          [.finishupgrade, .upgrade, .rollback]
         else [.upgrade, .rollback]) := by
  have t9 : TrimSpace "api:1.2.3" = "api:1.2.3" := by decide
  refine unhealthy_pass_rolls_back (sampleWorld "upgraded" statusUnhealthyAfterUpgrade)
    (sampleOptions true) sampleHeap sampleFound _ _ _ sampleClient (sampleService "upgraded")
    (sample_resolve "upgraded" statusUnhealthyAfterUpgrade true)
    (Prod.ext rfl ?_) (Prod.ext rfl ?_) rfl (Prod.ext rfl ?_) ?_
  · simp [preCheck, sampleService, FinishUpgrade, WaitForServiceState, GetServiceStatus,
      sampleWorld, sampleOptions, Sys.emit, Sys.log, sampleFound, statusUnhealthyAfterUpgrade,
      StatusReply.observed, polledState, WaitInterval, waitLoop_poll, waitLoop_done]
  · simp [submit, preCheck, sampleService, FinishUpgrade, UpgradeService, WaitForServiceState,
      GetServiceStatus, NewUpgradeRequest, t9, sampleWorld, sampleOptions, Sys.emit, Sys.log,
      sampleFound, statusUnhealthyAfterUpgrade, StatusReply.observed, polledState,
      WaitInterval, waitLoop_poll, waitLoop_done]
  · simp [submit, preCheck, sampleService, FinishUpgrade, UpgradeService,
      WaitForServiceState, GetServiceStatus, NewUpgradeRequest, t9, sampleWorld, sampleOptions,
      Sys.emit, Sys.log, sampleFound, statusUnhealthyAfterUpgrade, StatusReply.observed,
      polledState, WaitInterval, waitLoop_poll, waitLoop_done]
  · simp [submit, preCheck, sampleService, FinishUpgrade, UpgradeService,
      WaitForServiceState, GetServiceStatus, NewUpgradeRequest, t9, sampleWorld, sampleOptions,
      Sys.emit, Sys.log, sampleFound, statusUnhealthyAfterUpgrade, StatusReply.observed,
      polledState, WaitInterval, waitLoop_poll, waitLoop_done]

/-! ## C5: the time-out of the wait for `upgraded` -/

/-- C5 fails on lines 114-225 of `main` at the wait for `upgraded`: with a
time-out of 2 seconds and a service that is still `upgrading` at the one poll
of that wait, the wait returns its time-out error, and yet the status is
fetched, a finish action is posted on the service that is still `upgrading`,
the error is only logged and success is reported. -/
theorem converge_timeout_is_not_fatal :
    (WaitForServiceState (sampleWorld "active" statusSlowUpgrade)
        (submit (sampleWorld "active" statusSlowUpgrade) (sampleOptions true) sampleClient
          (sampleService "active") sampleFound).1
        (some (sampleService "active")) (sampleOptions true).upgradeTimeout "upgraded").2 =
      .err (waitError "upgrading" "upgraded") ∧
    (runFromClient (sampleWorld "active" statusSlowUpgrade) (sampleOptions true)
        sampleHeap).final.trace =
      [.list "projects?limit=1000",
       .list ("projects/" ++ "1a7" ++ "/environments?limit=1000"),
       .list ("projects/" ++ "1a7" ++ "/environments/" ++ "1st3" ++ "/services?limit=1000"),
       .action .upgrade "1a7" "1s5" .sent,
       .status "1a7" "1s5" (.service "upgrading" "healthy"),
       .status "1a7" "1s5" (.service "upgrading" "healthy"),
       .action .finishupgrade "1a7" "1s5" .sent,
       .status "1a7" "1s5" (.service "active" "healthy")] ∧
    (runFromClient (sampleWorld "active" statusSlowUpgrade) (sampleOptions true)
        sampleHeap).final.logs =
      [waitError "upgrading" "upgraded", "Upgrade succeed :)"] ∧
    (runFromClient (sampleWorld "active" statusSlowUpgrade) (sampleOptions true)
        sampleHeap).outcome = .reported "Upgrade succeed :)" := by
  have t9 : TrimSpace "api:1.2.3" = "api:1.2.3" := by decide
  refine ⟨?_, sample_pass_slow_upgrade.1, sample_pass_slow_upgrade.2.1,
    sample_pass_slow_upgrade.2.2⟩
  simp [submit, sampleService, UpgradeService, WaitForServiceState, GetServiceStatus,
    NewUpgradeRequest, t9, sampleWorld, sampleOptions, Sys.emit, Sys.log, sampleFound,
    statusSlowUpgrade, StatusReply.observed, polledState, WaitInterval, waitLoop_poll,
    waitLoop_done]

end Rancher
